import Mathlib

/-!
Verification of the build/release orchestration core of the rez package
manager (`src/rez/build_process.py`) against its natural-language design
specification.

The Python source is shallowly embedded: the `BuildProcess` /
`LocalSequentialBuildProcess` methods become Lean functions in a
state-and-trace monad `M` over an explicit filesystem/clock `World`.
External collaborators (build system adapter, version control system,
installed-package enumeration, resolver) are oracles carried in `Config`,
matching the narrow contracts of spec section 6.  Observable side effects
(directory removal/creation, environment resolution and persistence,
adapter invocation, artifact copies, release-record writes, tag creation,
prints) are recorded as an event trace.
-/

/-! ## String and path helpers (Python `posixpath` semantics) -/

/-- Python `posixpath.join(a, b)` for two string arguments: if `b` starts
with a slash it replaces `a`; otherwise a slash is inserted unless `a` is
empty or already ends with one. -/
def pjoin (a b : String) : String :=
  if b.data.head? = some '/' then b
  else if a = "" || a.data.getLast? = some '/' then a ++ b
  else a ++ "/" ++ b

/-- A dynamically-typed Python value as it flows through `build["subdir"]`:
the source stores either a string (the no-variant branch) or a list of
strings (the variant branch, see `pjoin1`). -/
inductive PathVal where
  | str (s : String)
  | list (xs : List String)
deriving DecidableEq, Repr

/-- Python `os.path.join(dirs)` called with a single argument: `join(a, *p)`
with `p` empty returns its first argument unchanged.  In
`BuildProcess._get_build_list` that single argument is the Python *list*
`dirs`, so the result is the list itself, not a joined path string. -/
def pjoin1 (xs : List String) : PathVal := .list xs

/-- Python `os.path.dirname` (posixpath): everything before the final
slash; a head consisting only of slashes is kept, otherwise trailing
slashes are stripped; no slash yields the empty string. -/
def dirname (s : String) : String :=
  let r := s.data.reverse.dropWhile (fun c => c != '/')
  if r.isEmpty then ""
  else if r.all (fun c => c = '/') then ⟨r.reverse⟩
  else ⟨(r.dropWhile (fun c => c = '/')).reverse⟩

/-- `'-' * n` (used by `BuildProcess._hdr`). -/
def dashLine (n : Nat) : String := ⟨List.replicate n '-'⟩

/-- Modelled from the spec: `rez.util.encode_filesystem_name` is imported
by `build_process.py` but the module that defines it is not among the
provided sources (the provided `python/rez/util.py` is an older revision
without it).  Spec section 6 (NameEncoder) requires a deterministic,
filesystem-safe, collision-avoiding encoding of a requirement token.
Lower-case letters, digits, `.` and `-` are kept; every other character
is escaped as `_<decimal code>_`, so distinct tokens encode to distinct
strings. -/
def encodeChar (c : Char) : List Char :=
  if c.isLower || c.isDigit || c = '.' || c = '-' then [c]
  else '_' :: (Nat.toDigits 10 c.toNat) ++ ['_']

/-- Modelled from the spec: see `encodeChar`. -/
def encode_filesystem_name (s : String) : String :=
  ⟨(s.data.map encodeChar).flatten⟩

/-- The subdirectory the spec prescribes for a variant: each token encoded
independently, then path-joined in declared order (spec section 4.1).
This is the spec-side definition, to be compared with what
`get_build_list` actually computes. -/
def subdirSpec (variant : List String) : String :=
  match variant.map encode_filesystem_name with
  | [] => ""
  | d :: ds => ds.foldl pjoin d

/-! ## Data model -/

/-- `rez.resolved_context.ResolvedContext` as observed by this code: an
opaque serializable handle built from the requirement list and a creation
timestamp (`ResolvedContext(request, timestamp=int(time.time()),
build_requires=True)`); spec section 3 ResolvedEnvironment. -/
structure ResolvedContext where
  request : List String
  timestamp : Nat
deriving DecidableEq, Repr

/-- The release record persisted as `release.yaml` (spec ReleaseRecord). -/
structure ReleaseInfo where
  revision : Option String
  changelog : String
  previous_version : Option String
  previous_revision : Option String
deriving DecidableEq, Repr

/-- Contents of a file in the modelled filesystem: a serialized resolved
context (`build.rxt`), a release record (`release.yaml`), or an opaque
artifact identified by its origin path. -/
inductive FileVal where
  | rxt (c : ResolvedContext)
  | rel (info : ReleaseInfo)
  | blob (origin : String)
deriving DecidableEq, Repr

/-- Association-list lookup of a file by path (first match wins; writes
cons at the front, so the newest write is found). -/
def lookupFile : List (String × FileVal) → String → Option FileVal
  | [], _ => none
  | (q, v) :: rest, p => if q = p then some v else lookupFile rest p

/-- The filesystem-and-clock state threaded through an invocation.
`time` models `int(time.time())` as a strictly monotone clock: each read
returns the current instant and advances it. -/
structure World where
  dirs : List String
  files : List (String × FileVal)
  time : Nat
deriving DecidableEq, Repr

def World.readFile (w : World) (p : String) : Option FileVal :=
  lookupFile w.files p

def World.writeFile (w : World) (p : String) (v : FileVal) : World :=
  { w with files := (p, v) :: w.files }

/-- `os.path.exists`: true for a known directory or a present file. -/
def World.pathExists (w : World) (p : String) : Bool :=
  w.dirs.contains p || (w.readFile p).isSome

/-- Is `p` inside the tree rooted at `bp` (`bp` itself included)?  Used to
model `shutil.rmtree`. -/
def underPath (bp p : String) : Bool :=
  p = bp || (if bp.data.getLast? = some '/' then bp.data else bp.data ++ ['/']).isPrefixOf p.data

/-- `shutil.rmtree(bp)`: removes the directory and everything beneath it. -/
def World.rmtree (w : World) (bp : String) : World :=
  { w with dirs := w.dirs.filter (fun d => !underPath bp d),
           files := w.files.filter (fun f => !underPath bp f.1) }

/-- `os.makedirs(p)`.  Intermediate parent directories are not tracked
separately: no code under verification ever tests a parent it did not
itself create. -/
def World.makedirs (w : World) (p : String) : World :=
  { w with dirs := p :: w.dirs }

/-- The dictionary returned by `self.buildsys.build(...)` (spec
BuildOutcome): `success`, an optional `build_env_script`, and
`extra_files` (the install artifacts). -/
structure BuildResult where
  success : Bool
  build_env_script : Option String
  extra_files : List String
deriving DecidableEq, Repr

/-- One package yielded by `rez.packages.iter_packages_in_range` at the
release path: its version and the path of its metafile.  The enumeration
itself is an oracle (`Config.installed`); no order is assumed.
`rez.versions.ExactVersion` is not among the provided sources, so
versions are modelled from the spec as naturals with the usual order
(the empty version as 0). -/
structure InstalledPkg where
  version : Nat
  metafile : String
deriving DecidableEq, Repr

/-- The version control system oracle (spec VersionControlAdapter):
whether `validate_repostate` passes, the current revision, the
changelog-since function, and whether `create_release_tag` succeeds. -/
structure VcsOracle where
  validate_ok : Bool
  current_revision : String
  changelog : Option String → String
  create_tag_ok : Bool

/-- Everything a `LocalSequentialBuildProcess` instance closes over:
package metadata fields, settings, verbosity, and the external oracles
(build system adapter, VCS, installed-package enumeration). -/
structure Config where
  name : String
  version : Option Nat
  requires : List String
  build_requires : List String
  variants : List (List String)
  verbose : Bool
  release_message : Option String
  working_dir : String
  build_directory : String
  local_packages_path : String
  release_packages_path : String
  buildsys : ResolvedContext → String → String → Bool → BuildResult
  vcs : VcsOracle
  installed : List InstalledPkg

/-- One entry of the list built by `BuildProcess._get_build_list`. -/
structure Build where
  variant_index : Option Nat
  subdir : PathVal
  requires : List String
deriving DecidableEq, Repr

/-- The Python exceptions this code can raise or propagate. -/
inductive Err where
  | rezError (msg : String)
  | releaseError (msg : String)
  | attributeError (msg : String)
  | ioError (path : String)
  | vcsError (msg : String)
deriving DecidableEq, Repr

/-- Observable side effects, in execution order. -/
inductive Ev where
  | prEv (s : String)
  | printInfoEv (c : ResolvedContext)
  | validateEv
  | rmtreeEv (path : String)
  | makedirsEv (path : String)
  | resolveEv (request : List String) (timestamp : Nat)
  | saveRxtEv (path : String) (c : ResolvedContext)
  | loadRxtEv (path : String)
  | readRelEv (path : String)
  | buildsysEv (c : ResolvedContext) (buildPath : String) (installPath : String)
      (install : Bool) (ret : BuildResult)
  | copyEv (src : String) (dst : String)
  | writeRecordEv (path : String) (info : ReleaseInfo)
  | tagEv (msg : Option String)
deriving DecidableEq, Repr

deriving instance DecidableEq for Except

/-! ## The effect monad: state (`World`), exceptions (`Err`), trace (`List Ev`) -/

def M (α : Type) : Type := World → Except Err α × World × List Ev

def M.pure (a : α) : M α := fun w => (.ok a, w, [])

def M.bind (x : M α) (f : α → M β) : M β := fun w =>
  match x w with
  | (.ok a, w1, t1) =>
    match f a w1 with
    | (r, w2, t2) => (r, w2, t1 ++ t2)
  | (.error e, w1, t1) => (.error e, w1, t1)

instance : Monad M where
  pure := M.pure
  bind := M.bind

def M.throw (e : Err) : M α := fun w => (.error e, w, [])

def M.emit (e : Ev) : M Unit := fun w => (.ok (), w, [e])

/-- Lift a pure `Except` computation (a Python expression that may raise). -/
def M.liftE (x : Except Err α) : M α := fun w => (x, w, [])

/-- Result of running a computation on a world. -/
def rres (x : M α) (w : World) : Except Err α := (x w).1

/-- Final world after running a computation. -/
def rworld (x : M α) (w : World) : World := (x w).2.1

/-- Event trace of running a computation. -/
def rtrace (x : M α) (w : World) : List Ev := (x w).2.2

/-! ## Filesystem / clock / collaborator primitives -/

def osPathExists (p : String) : M Bool := fun w => (.ok (w.pathExists p), w, [])

def shutilRmtree (p : String) : M Unit := fun w => (.ok (), w.rmtree p, [.rmtreeEv p])

def osMakedirs (p : String) : M Unit := fun w => (.ok (), w.makedirs p, [.makedirsEv p])

/-- `int(time.time())`: read the clock and advance it. -/
def timeTime : M Nat := fun w => (.ok w.time, { w with time := w.time + 1 }, [])

/-- `ResolvedContext.load(path)`: deserialize a persisted context; a
missing or non-context file raises. -/
def ResolvedContext.load (p : String) : M ResolvedContext := fun w =>
  match w.readFile p with
  | some (.rxt c) => (.ok c, w, [.loadRxtEv p])
  | _ => (.error (.ioError p), w, [])

/-- `r.save(path)`. -/
def ResolvedContext.save (c : ResolvedContext) (p : String) : M Unit := fun w =>
  (.ok (), w.writeFile p (.rxt c), [.saveRxtEv p c])

/-- `shutil.copy(src, dst)` copying `src` into the directory `dst`.  The
copied artifacts are never read back by the code under verification, so
the copy is modelled by its event. -/
def shutilCopy (src dst : String) : M Unit := fun w => (.ok (), w, [.copyEv src dst])

/-- `open(path, 'w').write(yaml.dump(info))` for the release record. -/
def writeReleaseYaml (p : String) (info : ReleaseInfo) : M Unit := fun w =>
  (.ok (), w.writeFile p (.rel info), [.writeRecordEv p info])

/-- `yaml.load(open(path).read())` for a prior release record; a missing
or non-record file raises. -/
def readReleaseYaml (p : String) : M ReleaseInfo := fun w =>
  match w.readFile p with
  | some (.rel info) => (.ok info, w, [.readRelEv p])
  | _ => (.error (.ioError p), w, [])

def VcsOracle.validate_repostate (v : VcsOracle) : M Unit := fun w =>
  if v.validate_ok then (.ok (), w, [.validateEv])
  else (.error (.vcsError "dirty working tree"), w, [.validateEv])

def VcsOracle.create_release_tag (v : VcsOracle) (msg : Option String) : M Unit := fun w =>
  if v.create_tag_ok then (.ok (), w, [.tagEv msg])
  else (.error (.vcsError "tag creation failed"), w, [])

/-! ## The embedded source: `BuildProcess` methods -/

/-- `BuildProcess._pr`. -/
def pr (cfg : Config) (s : String) : M Unit :=
  if cfg.verbose then M.emit (.prEv s) else M.pure ()

/-- `BuildProcess._hdr`. -/
def hdr (cfg : Config) (s : String) (h : Nat) : M Unit := do
  pr cfg ""
  if h ≤ 1 then do
    pr cfg (dashLine 80)
    pr cfg s
    pr cfg (dashLine 80)
  else do
    pr cfg s
    pr cfg (dashLine s.length)

/-- `BuildProcess._get_base_install_path`: `path/name`, with the version
segment appended when the package has one. -/
def get_base_install_path (cfg : Config) (path : String) : String :=
  let p := pjoin path cfg.name
  match cfg.version with
  | some ver => pjoin p (toString ver)
  | none => p

/-- `BuildProcess._get_build_list`. -/
def get_build_list (cfg : Config) : List Build :=
  let requires := cfg.build_requires ++ cfg.requires
  match cfg.variants with
  | [] => [⟨none, .str "", requires⟩]
  | vs =>
    vs.enum.map (fun iv =>
      ⟨some iv.1, pjoin1 (iv.2.map encode_filesystem_name), requires ++ iv.2⟩)

/-- The loop body of `BuildProcess._get_last_release`: for each enumerated
package, a version at or above the target raises `ReleaseError` (when
`ensure_latest`), while the first version below it is returned together
with its `release.yaml` contents. -/
def get_last_release_loop (ver : Nat) (ensure_latest : Bool) :
    List InstalledPkg → M (Option InstalledPkg × Option ReleaseInfo)
  | [] => M.pure (none, none)
  | pkg :: rest =>
    if pkg.version ≥ ver then
      if ensure_latest then
        M.throw (.releaseError
          ("cannot release - a newer or equal package version already exists: "
            ++ pkg.metafile))
      else get_last_release_loop ver ensure_latest rest
    else do
      let path := dirname pkg.metafile
      let release_yaml := pjoin path "release.yaml"
      let info ← readReleaseYaml release_yaml
      M.pure (some pkg, some info)

/-- `BuildProcess._get_last_release`. -/
def get_last_release (cfg : Config) (ensure_latest : Bool) :
    M (Option InstalledPkg × Option ReleaseInfo) :=
  get_last_release_loop (cfg.version.getD 0) ensure_latest cfg.installed

/-- `os.path.join(base, subdir)` where `subdir` is the dynamically-typed
`build["subdir"]`: a Python list has no `startswith`, so a list argument
raises `AttributeError`. -/
def pjoinVal (a : String) : PathVal → Except Err String
  | .str s => .ok (pjoin a s)
  | .list _ => .error (.attributeError "'list' object has no attribute 'startswith'")

/-- The `for file in extra_files` copy loop. -/
def copyAll (files : List String) (dst : String) : M Unit :=
  match files with
  | [] => M.pure ()
  | f :: rest => do
    shutilCopy f dst
    copyAll rest dst

/-- The directory-setup steps of the loop body of
`LocalSequentialBuildProcess._build`: `if clean and os.path.exists(
build_path): shutil.rmtree(build_path)` followed by `if not
os.path.exists(build_path): os.makedirs(build_path)`. -/
def prepareBuildDir (clean : Bool) (build_path : String) : M Unit := do
  if clean then do
    let ex ← osPathExists build_path
    if ex then shutilRmtree build_path else M.pure ()
  else M.pure ()
  let ex2 ← osPathExists build_path
  if !ex2 then osMakedirs build_path else M.pure ()

/-- The environment-resolution steps of the loop body (the spec's
`EnvironmentCache.acquire`): load `build.rxt` when it exists, otherwise
resolve with the unit's requirements at the current time and persist the
result before use. -/
def acquireContext (cfg : Config) (requires : List String) (rxt_path : String) :
    M ResolvedContext := do
  let exr ← osPathExists rxt_path
  if exr then do
    pr cfg "Loading existing environment context..."
    ResolvedContext.load rxt_path
  else do
    pr cfg ("Resolving build environment: " ++ String.intercalate " " requires)
    let t ← timeTime
    let r : ResolvedContext := ⟨requires, t⟩
    M.emit (.resolveEv requires t)
    M.emit (.printInfoEv r)
    r.save rxt_path
    M.pure r

/-- The `for i,bld in enumerate(builds)` loop of
`LocalSequentialBuildProcess._build`, carrying the running index, the
accumulated `build_env_scripts`, and the remaining builds; returns the
loop outcome (`False` on the early return) together with the accumulated
scripts. -/
def buildUnits (cfg : Config) (base_build_path base_install_path : String)
    (clean install : Bool) (total : Nat) :
    Nat → List String → List Build → M (Bool × List String)
  | _, scripts, [] => M.pure (true, scripts)
  | i, scripts, bld :: rest => do
    hdr cfg ("Building " ++ toString (i + 1) ++ "/" ++ toString total ++ "...") 2
    let build_path ← M.liftE (pjoinVal base_build_path bld.subdir)
    let install_path ← M.liftE (pjoinVal base_install_path bld.subdir)
    prepareBuildDir clean build_path
    let rxt_path := pjoin build_path "build.rxt"
    let r ← acquireContext cfg bld.requires rxt_path
    pr cfg "\nInvoking build system..."
    let ret := cfg.buildsys r build_path install_path install
    M.emit (.buildsysEv r build_path install_path install ret)
    if ret.success then do
      let scripts2 :=
        match ret.build_env_script with
        | some script => if script = "" then scripts else scripts ++ [script]
        | none => scripts
      let extra_files := ret.extra_files ++ [rxt_path]
      if install && !extra_files.isEmpty then copyAll extra_files install_path
      else M.pure ()
      buildUnits cfg base_build_path base_install_path clean install total
        (i + 1) scripts2 rest
    else
      M.pure (false, scripts)

/-- `LocalSequentialBuildProcess._build`.  The early `return False` inside
the loop skips the final report prints; the accumulated script list is
only printed, never returned. -/
def build_impl (cfg : Config) (install_path base_build_path : String)
    (clean install : Bool) : M Bool := do
  let base_install_path := get_base_install_path cfg install_path
  let builds := get_build_list cfg
  let res ← buildUnits cfg base_build_path base_install_path clean install
    builds.length 0 [] builds
  if !res.1 then M.pure false
  else do
    if !res.2.isEmpty then do
      pr cfg "\nThe following executable script(s) have been created:"
      pr cfg (String.intercalate "\n" res.2)
      pr cfg ""
    else
      pr cfg ("\nAll " ++ toString builds.length ++ " build(s) were successful.\n")
    M.pure true

/-- `LocalSequentialBuildProcess.build`.  `os.path.realpath` is modelled
as the identity (the model has no symlinks); a `None` or empty install
path falls back to the local packages path (Python truthiness). -/
def build (cfg : Config) (install_path : Option String) (clean install : Bool) : M Bool := do
  hdr cfg "Building..." 1
  let base_build_path := pjoin cfg.working_dir cfg.build_directory
  let ip :=
    match install_path with
    | some p => if p = "" then cfg.local_packages_path else p
    | none => cfg.local_packages_path
  build_impl cfg ip base_build_path clean install

/-- The verify pass of a release: `self._build(install_path=install_path,
base_build_path=base_build_path, install=False, clean=True)`. -/
def verifyPass (cfg : Config) (install_path base_build_path : String) : M Bool :=
  build_impl cfg install_path base_build_path true false

/-- The install pass of a release: `self._build(install_path=install_path,
base_build_path=base_build_path, install=True, clean=False)`. -/
def installPass (cfg : Config) (install_path base_build_path : String) : M Bool :=
  build_impl cfg install_path base_build_path false true

/-- The release build tree: `working_dir/build_directory/release`. -/
def releaseBuildPath (cfg : Config) : String :=
  pjoin (pjoin cfg.working_dir cfg.build_directory) "release"

/-- The path of the release record written by `release`. -/
def releaseRecordPath (cfg : Config) : String :=
  pjoin (get_base_install_path cfg cfg.release_packages_path) "release.yaml"

/-- `LocalSequentialBuildProcess.release`.  The embedding always carries a
VCS oracle, matching the `assert(self.vcs)` guard. -/
def release (cfg : Config) : M Bool := do
  let install_path := cfg.release_packages_path
  let base_build_path := releaseBuildPath cfg
  cfg.vcs.validate_repostate
  let last ← get_last_release cfg true
  hdr cfg "Building..." 1
  let ok1 ← verifyPass cfg install_path base_build_path
  if !ok1 then M.pure false
  else do
    hdr cfg "Releasing..." 1
    let ok2 ← installPass cfg install_path base_build_path
    if !ok2 then M.pure false
    else do
      let last_ver := last.1.map (fun p => toString p.version)
      let last_rev :=
        match last.2 with
        | some info => info.revision
        | none => none
      let release_path := get_base_install_path cfg install_path
      let curr_rev := cfg.vcs.current_revision
      let changelog := cfg.vcs.changelog last_rev
      let release_info : ReleaseInfo := ⟨some curr_rev, changelog, last_ver, last_rev⟩
      writeReleaseYaml (pjoin release_path "release.yaml") release_info
      cfg.vcs.create_release_tag cfg.release_message
      M.pure true

/-! ## Trace observations -/

/-- A build, install, record-write or tag side effect (the side-effect
classes named by the release-monotonicity claim); prints, repository
validation and reads are not among them. -/
def isBuildSideEffect : Ev → Bool
  | .rmtreeEv _ => true
  | .makedirsEv _ => true
  | .resolveEv _ _ => true
  | .saveRxtEv _ _ => true
  | .buildsysEv _ _ _ _ _ => true
  | .copyEv _ _ => true
  | .writeRecordEv _ _ => true
  | .tagEv _ => true
  | _ => false

def isTag : Ev → Bool
  | .tagEv _ => true
  | _ => false

def isRecord : Ev → Bool
  | .writeRecordEv _ _ => true
  | _ => false

def isCopy : Ev → Bool
  | .copyEv _ _ => true
  | _ => false

/-- The adapter invocations recorded in a trace. -/
def buildsysOf : Ev → Option (ResolvedContext × String × String × Bool × BuildResult)
  | .buildsysEv c bp ip inst ret => some (c, bp, ip, inst, ret)
  | _ => none

/-- The resolved contexts handed to the build-system adapter. -/
def ctxsUsed (tr : List Ev) : List ResolvedContext :=
  tr.filterMap (fun e => (buildsysOf e).map (fun x => x.1))

/-- An adapter invocation that reported failure. -/
def isFailingBuildsys : Ev → Bool
  | .buildsysEv _ _ _ _ ret => !ret.success
  | _ => false

/-- Scans a trace: once an adapter invocation reports failure, nothing at
all may follow (the fail-fast policy). -/
def failStops : List Ev → Bool
  | [] => true
  | .buildsysEv _ _ _ _ ret :: rest => if ret.success then failStops rest else rest.isEmpty
  | _ :: rest => failStops rest

/-- Scans a trace: a tag creation must not occur before a release-record
write (the first of the two kinds to occur must be the record write). -/
def recordBeforeTag : List Ev → Bool
  | [] => true
  | .tagEv _ :: _ => false
  | .writeRecordEv _ _ :: _ => true
  | _ :: rest => recordBeforeTag rest

/-- The contribution of one trace event to `build_env_scripts`: the
(Python-truthy) `build_env_script` of a successful adapter result. -/
def scriptOf : Ev → Option String
  | .buildsysEv _ _ _ _ ret =>
    if ret.success then
      match ret.build_env_script with
      | some s => if s = "" then none else some s
      | none => none
    else none
  | _ => none

/-- The activation scripts accumulated in `build_env_scripts`: the
(Python-truthy) `build_env_script` entries of the successful adapter
results, in order. -/
def accumScripts (tr : List Ev) : List String :=
  tr.filterMap scriptOf

/-- The cache-protocol events of a trace: resolver calls, cache saves and
loads, and adapter invocations, in order. -/
def keyEvent : Ev → Option Ev
  | .resolveEv rq t => some (.resolveEv rq t)
  | .saveRxtEv p c => some (.saveRxtEv p c)
  | .loadRxtEv p => some (.loadRxtEv p)
  | .buildsysEv c bp ip inst ret => some (.buildsysEv c bp ip inst ret)
  | _ => none

def keyTrace (tr : List Ev) : List Ev := tr.filterMap keyEvent

/-- Trace contributed by one `_pr` call. -/
def prTrace (cfg : Config) (s : String) : List Ev :=
  if cfg.verbose then [.prEv s] else []

/-- Trace contributed by one `_hdr` call. -/
def hdrTrace (cfg : Config) (s : String) (h : Nat) : List Ev :=
  if h ≤ 1 then
    prTrace cfg "" ++ (prTrace cfg (dashLine 80) ++ (prTrace cfg s ++ prTrace cfg (dashLine 80)))
  else
    prTrace cfg "" ++ (prTrace cfg s ++ prTrace cfg (dashLine s.length))

/-- Explicit result of `prepareBuildDir`: final world and trace. -/
def prepDir (clean : Bool) (bp : String) (w : World) : World × List Ev :=
  let hit := clean && w.pathExists bp
  let w1 := if hit then w.rmtree bp else w
  let t1 : List Ev := if hit then [.rmtreeEv bp] else []
  if w1.pathExists bp then (w1, t1) else (w1.makedirs bp, t1 ++ [.makedirsEv bp])

/-- Explicit result of `acquireContext` (the EnvironmentCache contract):
cache hit loads the persisted context; cache miss resolves at the current
time and persists before returning; a present but unreadable cache file
raises. -/
def acquireRes (cfg : Config) (req : List String) (p : String) (w : World) :
    Except Err ResolvedContext × World × List Ev :=
  if w.pathExists p then
    match w.readFile p with
    | some (.rxt c) =>
      (.ok c, w, prTrace cfg "Loading existing environment context..." ++ [.loadRxtEv p])
    | _ => (.error (.ioError p), w, prTrace cfg "Loading existing environment context...")
  else
    let c : ResolvedContext := ⟨req, w.time⟩
    (.ok c, { w with time := w.time + 1 }.writeFile p (.rxt c),
      prTrace cfg ("Resolving build environment: " ++ String.intercalate " " req) ++
        [.resolveEv req w.time, .printInfoEv c, .saveRxtEv p c])

/-- The tail of one loop iteration from the adapter invocation onward,
shared by the cache-hit and cache-miss paths. -/
def unitCont (cfg : Config) (bb bi : String) (clean install : Bool) (total i : Nat)
    (sc : List String) (rest : List Build) (build_path install_path rxt_path : String)
    (c : ResolvedContext) (w3 : World) (tpre : List Ev) :
    Except Err (Bool × List String) × World × List Ev :=
  let ret := cfg.buildsys c build_path install_path install
  let t4 := prTrace cfg "\nInvoking build system..." ++
    [Ev.buildsysEv c build_path install_path install ret]
  if ret.success then
    let sc2 :=
      match ret.build_env_script with
      | some script => if script = "" then sc else sc ++ [script]
      | none => sc
    let t5 :=
      if install && !(ret.extra_files ++ [rxt_path]).isEmpty then
        (ret.extra_files ++ [rxt_path]).map (fun f => Ev.copyEv f install_path)
      else []
    let k := buildUnits cfg bb bi clean install total (i + 1) sc2 rest w3
    (k.1, k.2.1, tpre ++ (t4 ++ (t5 ++ k.2.2)))
  else (.ok (false, sc), w3, tpre ++ t4)

/-! ## Fail-fast shape of the loop trace -/

/-- No adapter invocation occurs in the trace. -/
def noBuildsys (tr : List Ev) : Bool := tr.all (fun e => (buildsysOf e).isNone)

/-- The record computed and written by a successful release, as a function
of the prior-release lookup. -/
def releaseInfoOf (cfg : Config) (last : Option InstalledPkg × Option ReleaseInfo) :
    ReleaseInfo :=
  ⟨some cfg.vcs.current_revision,
    cfg.vcs.changelog (match last.2 with | some info => info.revision | none => none),
    last.1.map (fun p => toString p.version),
    match last.2 with | some info => info.revision | none => none⟩

/-! ## Tag-free and record-free traces -/

/-- Neither a tag creation nor a record write occurs in the trace. -/
def noTagRec (tr : List Ev) : Bool := tr.all (fun e => !isTag e && !isRecord e)

def cfgC2 : Config :=
  ⟨"foo", some 1, ["bar"], [], [], false, none, "wd", "bld", "lp", "rp",
    fun _ _ _ _ => ⟨true, none, []⟩, ⟨true, "r1", fun _ => "lg", false⟩, []⟩

def wC2 : World := ⟨[], [], 5⟩

def cfgC10 : Config :=
  ⟨"foo", some 1, ["bar"], [], [], false, none, "wd", "bld", "lp", "rp",
    fun _ _ _ _ => ⟨true, none, []⟩, ⟨true, "r1", fun r => match r with
      | none => "full history" | some _ => "partial", true⟩, []⟩

def wC10 : World := ⟨[], [], 7⟩

/-! ## Claim C1: release monotonicity check -/

def cfgC1 : Config :=
  ⟨"foo", some 3, ["bar"], [], [], false, none, "wd", "build", "local", "rel",
    fun _ _ _ _ => ⟨true, none, []⟩, ⟨true, "r9", fun _ => "log", true⟩,
    [⟨1, "rel/foo/1/package.yaml"⟩, ⟨5, "rel/foo/5/package.yaml"⟩]⟩

def wC1 : World := ⟨[], [("rel/foo/1/release.yaml", .rel ⟨some "r1", "cl", none, none⟩)], 100⟩

def cfgC1b : Config :=
  ⟨"foo", some 3, ["bar"], [], [], false, none, "wd", "build", "local", "rel",
    fun _ _ _ _ => ⟨true, none, []⟩, ⟨true, "r9", fun _ => "log", true⟩,
    [⟨5, "rel/foo/5/package.yaml"⟩, ⟨1, "rel/foo/1/package.yaml"⟩]⟩

def cfgC5 : Config :=
  ⟨"p", none, ["r1"], ["b1"], [["x"], ["y"]], false, none, "w", "b", "l", "r",
    fun _ _ _ _ => ⟨true, none, []⟩, ⟨true, "r", fun _ => "", true⟩, []⟩

def cfgC5e : Config :=
  ⟨"p", none, ["r1"], ["b1"], [], false, none, "w", "b", "l", "r",
    fun _ _ _ _ => ⟨true, none, []⟩, ⟨true, "r", fun _ => "", true⟩, []⟩

/-! ## Claim C6: the variant subdirectory (code bug) -/

def cfgC6 : Config :=
  ⟨"p", some 1, ["req"], [], [["python", "boost"]], false, none, "w", "b", "l", "r",
    fun _ _ _ _ => ⟨true, none, []⟩, ⟨true, "r", fun _ => "", true⟩, []⟩

/-! ## Claim C3: fail-fast build loop -/

/-- The build paths of the adapter invocations in a trace, in order (the
units actually attempted). -/
def buildsysPaths (tr : List Ev) : List String :=
  tr.filterMap (fun e => (buildsysOf e).map (fun x => x.2.1))

def builds3 : List Build :=
  [⟨none, .str "a", ["r1"]⟩, ⟨none, .str "b", ["r2"]⟩, ⟨none, .str "c", ["r3"]⟩]

def cfgC3 : Config :=
  ⟨"p", some 1, [], [], [], false, none, "w", "b", "l", "r",
    fun _ bp _ _ => ⟨decide (bp ≠ "bb/b"), none, []⟩,
    ⟨true, "r", fun _ => "", true⟩, []⟩

def wC3 : World := ⟨[], [], 0⟩

/-- The adapter invocations of a trace with their full arguments and
results. -/
def bsCalls (tr : List Ev) : List (ResolvedContext × String × String × Bool × BuildResult) :=
  tr.filterMap buildsysOf

/-- An adapter invocation with `install = true` (an install-pass call). -/
def isInstallCall : Ev → Bool
  | .buildsysEv _ _ _ true _ => true
  | _ => false

/-- Events a verify pass may emit and a failed release may contain: no
copy, no tag, no install-flagged adapter call. -/
def verifySafe (e : Ev) : Bool := !isCopy e && (!isTag e && !isInstallCall e)

def cfgC4 : Config :=
  ⟨"foo", some 1, ["bar"], [], [], false, none, "wd", "bld", "lp", "rp",
    fun _ _ _ _ => ⟨true, none, []⟩, ⟨true, "r1", fun _ => "lg", true⟩, []⟩

def cfgC4f : Config :=
  ⟨"foo", some 1, ["bar"], [], [], false, none, "wd", "bld", "lp", "rp",
    fun _ _ _ _ => ⟨false, none, []⟩, ⟨true, "r1", fun _ => "lg", true⟩, []⟩

def wC4 : World := ⟨[], [], 3⟩

/-! ## Claim C7: the environment cache -/

/-- No cache-protocol event occurs in the trace. -/
def noKey (tr : List Ev) : Bool := tr.all (fun e => (keyEvent e).isNone)

def cfgC7 : Config :=
  ⟨"foo", some 2, ["bar"], ["bzip"], [], false, none, "wd", "bld", "lp", "rp",
    fun _ _ _ _ => ⟨true, none, []⟩, ⟨true, "r1", fun _ => "lg", true⟩, []⟩

def wC7 : World := ⟨[], [], 42⟩

/-! ## Claim C8: install-time copies -/

/-- The source and destination of a copy event. -/
def copyOf : Ev → Option (String × String)
  | .copyEv s d => some (s, d)
  | _ => none

/-- The file copies of a trace, in order, as source/destination pairs. -/
def copies (tr : List Ev) : List (String × String) :=
  tr.filterMap copyOf

/-- No copy occurs in the trace. -/
def noCopy (tr : List Ev) : Bool := tr.all (fun e => (copyOf e).isNone)

def cfgC8 : Config :=
  ⟨"foo", some 2, ["bar"], [], [], false, none, "wd", "bld", "lp", "rp",
    fun _ _ _ _ => ⟨true, none, []⟩, ⟨true, "r1", fun _ => "lg", true⟩, []⟩

def cfgC8w : Config :=
  ⟨"foo", some 2, ["bar"], [], [], false, none, "wd", "bld", "lp", "rp",
    fun _ _ _ _ => ⟨true, none, ["lib.so"]⟩, ⟨true, "r1", fun _ => "lg", true⟩, []⟩

def wC8 : World := ⟨[], [], 42⟩

/-! ## Claim C9: what the build operation returns -/

def cfgC9a : Config :=
  ⟨"foo", some 2, ["bar"], [], [], false, none, "wd", "bld", "lp", "rp",
    fun _ _ _ _ => ⟨true, some "env.sh", []⟩, ⟨true, "r1", fun _ => "lg", true⟩, []⟩

def cfgC9b : Config :=
  ⟨"foo", some 2, ["bar"], [], [], false, none, "wd", "bld", "lp", "rp",
    fun _ _ _ _ => ⟨true, none, []⟩, ⟨true, "r1", fun _ => "lg", true⟩, []⟩

def cfgC9v : Config :=
  ⟨"foo", some 2, ["bar"], [], [], true, none, "wd", "bld", "lp", "rp",
    fun _ _ _ _ => ⟨true, some "env.sh", []⟩, ⟨true, "r1", fun _ => "lg", true⟩, []⟩


/-! # Theorems -/

/-! ## Running computations: decomposition lemmas -/

theorem bind_is_M_bind (x : M α) (f : α → M β) : x >>= f = M.bind x f := rfl

theorem pure_is_M_pure (a : α) : (pure a : M α) = M.pure a := rfl

theorem rres_pure (a : α) (w : World) : rres (M.pure a) w = .ok a := rfl

theorem rworld_pure (a : α) (w : World) : rworld (M.pure a) w = w := rfl

theorem rtrace_pure (a : α) (w : World) : rtrace (M.pure a) w = [] := rfl

theorem rres_bind (x : M α) (f : α → M β) (w : World) :
    rres (M.bind x f) w =
      match rres x w with
      | .ok a => rres (f a) (rworld x w)
      | .error e => .error e := by
  unfold rres rworld M.bind
  rcases h : x w with ⟨r, w1, t1⟩
  cases r <;> simp

theorem rworld_bind (x : M α) (f : α → M β) (w : World) :
    rworld (M.bind x f) w =
      match rres x w with
      | .ok a => rworld (f a) (rworld x w)
      | .error _ => rworld x w := by
  unfold rres rworld M.bind
  rcases h : x w with ⟨r, w1, t1⟩
  cases r <;> simp

theorem rtrace_bind (x : M α) (f : α → M β) (w : World) :
    rtrace (M.bind x f) w =
      match rres x w with
      | .ok a => rtrace x w ++ rtrace (f a) (rworld x w)
      | .error _ => rtrace x w := by
  unfold rres rworld rtrace M.bind
  rcases h : x w with ⟨r, w1, t1⟩
  cases r <;> simp

/-! ## Symbolic-execution lemmas: one bind step per primitive -/

theorem M.bind_pure (a : α) (f : α → M β) (w : World) :
    M.bind (M.pure a) f w = f a w := by
  unfold M.bind M.pure
  rcases h : f a w with ⟨r, w2, t2⟩
  simp [h]

theorem M.bind_throw (e : Err) (f : α → M β) (w : World) :
    M.bind (M.throw e) f w = (.error e, w, []) := rfl

theorem M.bind_emit (e : Ev) (f : Unit → M β) (w : World) :
    M.bind (M.emit e) f w = ((f () w).1, (f () w).2.1, e :: (f () w).2.2) := by
  unfold M.bind M.emit
  rcases h : f () w with ⟨r, w2, t2⟩
  simp [h]

theorem M.bind_liftE (x : Except Err α) (f : α → M β) (w : World) :
    M.bind (M.liftE x) f w =
      match x with
      | .ok a => f a w
      | .error e => (.error e, w, []) := by
  unfold M.bind M.liftE
  cases x with
  | ok a =>
    rcases h : f a w with ⟨r, w2, t2⟩
    simp [h]
  | error e => simp

theorem pr_run (cfg : Config) (s : String) (w : World) :
    pr cfg s w = (.ok (), w, prTrace cfg s) := by
  unfold pr prTrace M.emit M.pure
  split <;> rfl

theorem M.bind_pr (cfg : Config) (s : String) (f : Unit → M β) (w : World) :
    M.bind (pr cfg s) f w = ((f () w).1, (f () w).2.1, prTrace cfg s ++ (f () w).2.2) := by
  unfold M.bind
  rw [pr_run]

theorem hdr_run (cfg : Config) (s : String) (h : Nat) (w : World) :
    hdr cfg s h w = (.ok (), w, hdrTrace cfg s h) := by
  unfold hdr hdrTrace
  simp only [bind_is_M_bind, M.bind, pr_run]
  split <;> simp [bind_is_M_bind, M.bind, pr_run]

theorem M.bind_hdr (cfg : Config) (s : String) (h : Nat) (f : Unit → M β) (w : World) :
    M.bind (hdr cfg s h) f w =
      ((f () w).1, (f () w).2.1, hdrTrace cfg s h ++ (f () w).2.2) := by
  unfold M.bind
  rw [hdr_run]

theorem M.bind_osPathExists (p : String) (f : Bool → M β) (w : World) :
    M.bind (osPathExists p) f w = f (w.pathExists p) w := by
  unfold M.bind osPathExists
  rcases h : f (w.pathExists p) w with ⟨r, w2, t2⟩
  simp [h]

theorem M.bind_rmtree (p : String) (f : Unit → M β) (w : World) :
    M.bind (shutilRmtree p) f w =
      ((f () (w.rmtree p)).1, (f () (w.rmtree p)).2.1,
        .rmtreeEv p :: (f () (w.rmtree p)).2.2) := by
  unfold M.bind shutilRmtree
  rcases h : f () (w.rmtree p) with ⟨r, w2, t2⟩
  simp [h]

theorem M.bind_makedirs (p : String) (f : Unit → M β) (w : World) :
    M.bind (osMakedirs p) f w =
      ((f () (w.makedirs p)).1, (f () (w.makedirs p)).2.1,
        .makedirsEv p :: (f () (w.makedirs p)).2.2) := by
  unfold M.bind osMakedirs
  rcases h : f () (w.makedirs p) with ⟨r, w2, t2⟩
  simp [h]

theorem M.bind_timeTime (f : Nat → M β) (w : World) :
    M.bind timeTime f w = f w.time { w with time := w.time + 1 } := by
  unfold M.bind timeTime
  rcases h : f w.time { w with time := w.time + 1 } with ⟨r, w2, t2⟩
  simp [h]

theorem M.bind_load (p : String) (f : ResolvedContext → M β) (w : World) :
    M.bind (ResolvedContext.load p) f w =
      match w.readFile p with
      | some (.rxt c) => ((f c w).1, (f c w).2.1, .loadRxtEv p :: (f c w).2.2)
      | some (.rel _) => (.error (.ioError p), w, [])
      | some (.blob _) => (.error (.ioError p), w, [])
      | none => (.error (.ioError p), w, []) := by
  unfold M.bind ResolvedContext.load
  rcases h : w.readFile p with _ | v
  · simp
  · cases v with
    | rxt c =>
      rcases hf : f c w with ⟨r, w2, t2⟩
      simp [hf]
    | rel i => simp
    | blob o => simp

theorem M.bind_save (c : ResolvedContext) (p : String) (f : Unit → M β) (w : World) :
    M.bind (c.save p) f w =
      ((f () (w.writeFile p (.rxt c))).1, (f () (w.writeFile p (.rxt c))).2.1,
        .saveRxtEv p c :: (f () (w.writeFile p (.rxt c))).2.2) := by
  unfold M.bind ResolvedContext.save
  rcases h : f () (w.writeFile p (.rxt c)) with ⟨r, w2, t2⟩
  simp [h]

theorem copyAll_run (dst : String) :
    ∀ (files : List String) (w : World),
      copyAll files dst w = (.ok (), w, files.map (fun f => .copyEv f dst)) := by
  intro files
  induction files with
  | nil => intro w; rfl
  | cons f rest ih =>
    intro w
    simp only [copyAll, bind_is_M_bind, M.bind, shutilCopy, ih]
    rfl

theorem M.bind_copyAll (files : List String) (dst : String) (f : Unit → M β) (w : World) :
    M.bind (copyAll files dst) f w =
      ((f () w).1, (f () w).2.1,
        files.map (fun s => .copyEv s dst) ++ (f () w).2.2) := by
  unfold M.bind
  rw [copyAll_run]

theorem M.bind_writeRecord (p : String) (info : ReleaseInfo) (f : Unit → M β) (w : World) :
    M.bind (writeReleaseYaml p info) f w =
      ((f () (w.writeFile p (.rel info))).1, (f () (w.writeFile p (.rel info))).2.1,
        .writeRecordEv p info :: (f () (w.writeFile p (.rel info))).2.2) := by
  unfold M.bind writeReleaseYaml
  rcases h : f () (w.writeFile p (.rel info)) with ⟨r, w2, t2⟩
  simp [h]

theorem M.bind_readRel (p : String) (f : ReleaseInfo → M β) (w : World) :
    M.bind (readReleaseYaml p) f w =
      match w.readFile p with
      | some (.rel info) => ((f info w).1, (f info w).2.1, .readRelEv p :: (f info w).2.2)
      | some (.rxt _) => (.error (.ioError p), w, [])
      | some (.blob _) => (.error (.ioError p), w, [])
      | none => (.error (.ioError p), w, []) := by
  unfold M.bind readReleaseYaml
  rcases h : w.readFile p with _ | v
  · simp
  · cases v with
    | rxt c => simp
    | rel i =>
      rcases hf : f i w with ⟨r, w2, t2⟩
      simp [hf]
    | blob o => simp

theorem M.bind_validate (v : VcsOracle) (f : Unit → M β) (w : World) :
    M.bind v.validate_repostate f w =
      if v.validate_ok then ((f () w).1, (f () w).2.1, .validateEv :: (f () w).2.2)
      else (.error (.vcsError "dirty working tree"), w, [.validateEv]) := by
  unfold M.bind VcsOracle.validate_repostate
  by_cases hv : v.validate_ok = true
  · simp only [hv, if_true]
    rcases h : f () w with ⟨r, w2, t2⟩
    simp [h]
  · simp [hv]

theorem M.bind_createTag (v : VcsOracle) (msg : Option String) (f : Unit → M β) (w : World) :
    M.bind (v.create_release_tag msg) f w =
      if v.create_tag_ok then ((f () w).1, (f () w).2.1, .tagEv msg :: (f () w).2.2)
      else (.error (.vcsError "tag creation failed"), w, []) := by
  unfold M.bind VcsOracle.create_release_tag
  by_cases hv : v.create_tag_ok = true
  · simp only [hv, if_true]
    rcases h : f () w with ⟨r, w2, t2⟩
    simp [h]
  · simp [hv]

/-! ## Composition lemmas and step characterizations -/

theorem M.bind_of_run {x : M α} {w : World} {a : α} {w' : World} {t : List Ev}
    (hx : x w = (.ok a, w', t)) (f : α → M β) :
    M.bind x f w = ((f a w').1, (f a w').2.1, t ++ (f a w').2.2) := by
  unfold M.bind
  rw [hx]

theorem M.bind_of_error {x : M α} {w : World} {e : Err} {w' : World} {t : List Ev}
    (hx : x w = (.error e, w', t)) (f : α → M β) :
    M.bind x f w = (.error e, w', t) := by
  unfold M.bind
  rw [hx]

theorem prepareBuildDir_run (clean : Bool) (bp : String) (w : World) :
    prepareBuildDir clean bp w = (.ok (), (prepDir clean bp w).1, (prepDir clean bp w).2) := by
  unfold prepareBuildDir prepDir
  simp only [bind_is_M_bind]
  by_cases hc : clean = true
  · by_cases he : w.pathExists bp = true
    · by_cases he2 : (w.rmtree bp).pathExists bp = true
      · simp [hc, he, he2, M.bind, M.pure, osPathExists, shutilRmtree, osMakedirs]
      · simp only [Bool.not_eq_true] at he2
        simp [hc, he, he2, M.bind, M.pure, osPathExists, shutilRmtree, osMakedirs]
    · simp only [Bool.not_eq_true] at he
      simp [hc, he, M.bind, M.pure, osPathExists, shutilRmtree, osMakedirs]
  · simp only [Bool.not_eq_true] at hc
    by_cases he : w.pathExists bp = true
    · simp [hc, he, M.bind, M.pure, osPathExists, shutilRmtree, osMakedirs]
    · simp only [Bool.not_eq_true] at he
      simp [hc, he, M.bind, M.pure, osPathExists, shutilRmtree, osMakedirs]

theorem acquireContext_run (cfg : Config) (req : List String) (p : String) (w : World) :
    acquireContext cfg req p w = acquireRes cfg req p w := by
  unfold acquireContext acquireRes
  simp only [bind_is_M_bind]
  by_cases he : w.pathExists p = true
  · rcases hr : w.readFile p with _ | v
    · simp [he, hr, M.bind, M.pure, osPathExists, pr_run, ResolvedContext.load]
    · cases v <;>
        simp [he, hr, M.bind, M.pure, osPathExists, pr_run, ResolvedContext.load]
  · simp only [Bool.not_eq_true] at he
    simp [he, M.bind, M.pure, osPathExists, pr_run, timeTime, M.emit,
      ResolvedContext.save]

set_option maxHeartbeats 1000000 in
/-- Explicit formula for one iteration of the build loop. -/
theorem buildUnits_cons_run (cfg : Config) (bb bi : String) (clean install : Bool)
    (total i : Nat) (sc : List String) (bld : Build) (rest : List Build) (w : World) :
    buildUnits cfg bb bi clean install total i sc (bld :: rest) w =
      (let t0 := hdrTrace cfg ("Building " ++ toString (i + 1) ++ "/" ++ toString total ++ "...") 2
      match pjoinVal bb bld.subdir with
      | .error e => (.error e, w, t0)
      | .ok build_path =>
        match pjoinVal bi bld.subdir with
        | .error e => (.error e, w, t0)
        | .ok install_path =>
          let pd := prepDir clean build_path w
          let rxt_path := pjoin build_path "build.rxt"
          match acquireRes cfg bld.requires rxt_path pd.1 with
          | (.error e, w3, t3) => (.error e, w3, t0 ++ (pd.2 ++ t3))
          | (.ok c, w3, t3) =>
            unitCont cfg bb bi clean install total i sc rest build_path install_path
              rxt_path c w3 (t0 ++ (pd.2 ++ t3))) := by
  simp only [buildUnits, bind_is_M_bind, M.bind_hdr]
  cases hbp : pjoinVal bb bld.subdir with
  | error e => simp [M.bind_liftE, hbp]
  | ok build_path =>
    simp only [M.bind_liftE, hbp]
    cases hip : pjoinVal bi bld.subdir with
    | error e => simp [M.bind_liftE, hip]
    | ok install_path =>
      simp only [M.bind_liftE, hip]
      rw [M.bind_of_run (prepareBuildDir_run clean build_path w)]
      rcases hacq : acquireRes cfg bld.requires (pjoin build_path "build.rxt")
        (prepDir clean build_path w).1 with ⟨acqr, w3, t3⟩
      cases acqr with
      | error e =>
        rw [M.bind_of_error (by rw [acquireContext_run]; exact hacq)]
      | ok c =>
        rw [M.bind_of_run (by rw [acquireContext_run]; exact hacq)]
        simp only [M.bind_pr, M.bind_emit, unitCont]
        by_cases hs : (cfg.buildsys c build_path install_path install).success = true
        · simp only [hs, if_true]
          by_cases hcp : (install &&
              !((cfg.buildsys c build_path install_path install).extra_files ++
                [pjoin build_path "build.rxt"]).isEmpty) = true
          · simp [hcp, M.bind_copyAll, List.append_assoc]
          · simp only [Bool.not_eq_true] at hcp
            simp [hcp, M.bind_pure, List.append_assoc]
        · simp only [Bool.not_eq_true] at hs
          simp [hs, M.pure, List.append_assoc]

/-! ## Trace-shape lemmas for the build loop -/

theorem prTrace_all (cfg : Config) (s : String) (p : Ev → Bool)
    (hp : ∀ s', p (.prEv s') = true) : (prTrace cfg s).all p = true := by
  unfold prTrace
  split <;> simp [hp]

theorem hdrTrace_all (cfg : Config) (s : String) (h : Nat) (p : Ev → Bool)
    (hp : ∀ s', p (.prEv s') = true) : (hdrTrace cfg s h).all p = true := by
  unfold hdrTrace
  split <;> simp [List.all_append, prTrace_all, hp]

theorem prepDir_all (clean : Bool) (bp : String) (w : World) (p : Ev → Bool)
    (hrm : ∀ q, p (.rmtreeEv q) = true) (hmk : ∀ q, p (.makedirsEv q) = true) :
    (prepDir clean bp w).2.all p = true := by
  unfold prepDir
  dsimp only
  split <;> split <;> simp [List.all_append, hrm, hmk]

theorem acquireRes_all (cfg : Config) (req : List String) (q : String) (w : World)
    (p : Ev → Bool) (hp : ∀ s', p (.prEv s') = true)
    (hload : ∀ q', p (.loadRxtEv q') = true)
    (hres : ∀ rq t, p (.resolveEv rq t) = true)
    (hinfo : ∀ c, p (.printInfoEv c) = true)
    (hsave : ∀ q' c, p (.saveRxtEv q' c) = true) :
    (acquireRes cfg req q w).2.2.all p = true := by
  unfold acquireRes
  dsimp only
  split
  · split <;> simp [List.all_append, prTrace_all, hp, hload]
  · simp [List.all_append, prTrace_all, hp, hres, hinfo, hsave]

/-- Every event a run of the build loop can emit, by predicate: used to
rule out tags, record writes, copies without `install`, and adapter calls
with the wrong `install` flag. -/
theorem buildUnits_all (cfg : Config) (bb bi : String) (clean install : Bool)
    (total : Nat) (p : Ev → Bool)
    (hp : ∀ s, p (.prEv s) = true)
    (hload : ∀ q, p (.loadRxtEv q) = true)
    (hres : ∀ rq t, p (.resolveEv rq t) = true)
    (hinfo : ∀ c, p (.printInfoEv c) = true)
    (hsave : ∀ q c, p (.saveRxtEv q c) = true)
    (hrm : ∀ q, p (.rmtreeEv q) = true)
    (hmk : ∀ q, p (.makedirsEv q) = true)
    (hbs : ∀ c bp ip ret, p (.buildsysEv c bp ip install ret) = true)
    (hcp : ∀ s d, install = true → p (.copyEv s d) = true) :
    ∀ (builds : List Build) (i : Nat) (sc : List String) (w : World),
      ((buildUnits cfg bb bi clean install total i sc builds) w).2.2.all p = true := by
  intro builds
  induction builds with
  | nil => intro i sc w; rfl
  | cons bld rest ih =>
    intro i sc w
    rw [buildUnits_cons_run]
    cases hbp : pjoinVal bb bld.subdir with
    | error e => simp [hdrTrace_all, hp]
    | ok build_path =>
      cases hip : pjoinVal bi bld.subdir with
      | error e => simp [hdrTrace_all, hp]
      | ok install_path =>
        simp only
        rcases hacq : acquireRes cfg bld.requires (pjoin build_path "build.rxt")
          (prepDir clean build_path w).1 with ⟨acqr, w3, t3⟩
        have hacq3 : t3.all p = true := by
          have := acquireRes_all cfg bld.requires (pjoin build_path "build.rxt")
            (prepDir clean build_path w).1 p hp hload hres hinfo hsave
          rw [hacq] at this
          exact this
        cases acqr with
        | error e =>
          simp [List.all_append, hdrTrace_all, hp, prepDir_all, hrm, hmk, hacq3]
        | ok c =>
          unfold unitCont
          by_cases hs : (cfg.buildsys c build_path install_path install).success = true
          · simp only [hs, if_true]
            by_cases hcpb : (install &&
                !((cfg.buildsys c build_path install_path install).extra_files ++
                  [pjoin build_path "build.rxt"]).isEmpty) = true
            · have hinst : install = true := by
                rcases Bool.and_eq_true_iff.mp hcpb with ⟨h1, _⟩
                exact h1
              simp [hcpb, List.all_append, hdrTrace_all, hp, prepDir_all, hrm, hmk,
                hacq3, prTrace_all, hbs, List.all_map, hcp _ _ hinst, ih]
            · simp only [Bool.not_eq_true] at hcpb
              simp [hcpb, List.all_append, hdrTrace_all, hp, prepDir_all, hrm, hmk,
                hacq3, prTrace_all, hbs, ih]
          · simp only [Bool.not_eq_true] at hs
            simp [hs, List.all_append, hdrTrace_all, hp, prepDir_all, hrm, hmk,
              hacq3, prTrace_all, hbs]

theorem failStops_append_nb {t : List Ev} (h : noBuildsys t = true) (t' : List Ev) :
    failStops (t ++ t') = failStops t' := by
  induction t with
  | nil => rfl
  | cons e rest ih =>
    rw [List.cons_append]
    unfold noBuildsys at h
    simp only [List.all_cons, Bool.and_eq_true] at h
    cases e with
    | buildsysEv c bp ip inst ret => simp [buildsysOf] at h
    | prEv s => simp only [failStops]; exact ih h.2
    | printInfoEv c => simp only [failStops]; exact ih h.2
    | validateEv => simp only [failStops]; exact ih h.2
    | rmtreeEv q => simp only [failStops]; exact ih h.2
    | makedirsEv q => simp only [failStops]; exact ih h.2
    | resolveEv rq t => simp only [failStops]; exact ih h.2
    | saveRxtEv q c => simp only [failStops]; exact ih h.2
    | loadRxtEv q => simp only [failStops]; exact ih h.2
    | readRelEv q => simp only [failStops]; exact ih h.2
    | copyEv s d => simp only [failStops]; exact ih h.2
    | writeRecordEv q info => simp only [failStops]; exact ih h.2
    | tagEv m => simp only [failStops]; exact ih h.2

theorem failStops_of_nb {t : List Ev} (h : noBuildsys t = true) : failStops t = true := by
  have h2 := failStops_append_nb h []
  rw [List.append_nil] at h2
  rw [h2]
  rfl

theorem noBuildsys_append {t t' : List Ev} :
    noBuildsys (t ++ t') = (noBuildsys t && noBuildsys t') := by
  simp [noBuildsys, List.all_append]

/-- After a failing adapter invocation the build loop emits nothing
further, in every run over any build list. -/
theorem buildUnits_failStops (cfg : Config) (bb bi : String) (clean install : Bool)
    (total : Nat) :
    ∀ (builds : List Build) (i : Nat) (sc : List String) (w : World),
      failStops ((buildUnits cfg bb bi clean install total i sc builds) w).2.2 = true := by
  have hdrnb : ∀ s h, noBuildsys (hdrTrace cfg s h) = true := fun s h =>
    hdrTrace_all cfg s h _ (fun _ => rfl)
  have prnb : ∀ s, noBuildsys (prTrace cfg s) = true := fun s =>
    prTrace_all cfg s _ (fun _ => rfl)
  have pdnb : ∀ cl bp w, noBuildsys (prepDir cl bp w).2 = true := fun cl bp w =>
    prepDir_all cl bp w _ (fun _ => rfl) (fun _ => rfl)
  have aqnb : ∀ req q w, noBuildsys (acquireRes cfg req q w).2.2 = true := fun req q w =>
    acquireRes_all cfg req q w _ (fun _ => rfl) (fun _ => rfl) (fun _ _ => rfl)
      (fun _ => rfl) (fun _ _ => rfl)
  intro builds
  induction builds with
  | nil => intro i sc w; rfl
  | cons bld rest ih =>
    intro i sc w
    rw [buildUnits_cons_run]
    dsimp only
    cases hbp : pjoinVal bb bld.subdir with
    | error e => dsimp only; exact failStops_of_nb (hdrnb _ _)
    | ok build_path =>
      dsimp only
      cases hip : pjoinVal bi bld.subdir with
      | error e => dsimp only; exact failStops_of_nb (hdrnb _ _)
      | ok install_path =>
        dsimp only
        rcases hacq : acquireRes cfg bld.requires (pjoin build_path "build.rxt")
          (prepDir clean build_path w).1 with ⟨acqr, w3, t3⟩
        have ht3 : noBuildsys t3 = true := by
          have h2 := aqnb bld.requires (pjoin build_path "build.rxt")
            (prepDir clean build_path w).1
          rw [hacq] at h2
          exact h2
        cases acqr with
        | error e =>
          dsimp only
          exact failStops_of_nb (by
            simp only [noBuildsys_append, hdrnb, pdnb, ht3, Bool.and_self])
        | ok c =>
          dsimp only
          unfold unitCont
          by_cases hs : (cfg.buildsys c build_path install_path install).success = true
          · simp only [hs, if_true]
            by_cases hcpb : (install &&
                !((cfg.buildsys c build_path install_path install).extra_files ++
                  [pjoin build_path "build.rxt"]).isEmpty) = true
            · simp only [hcpb, if_true]
              rw [failStops_append_nb (by simp [noBuildsys_append, hdrnb, pdnb, ht3])]
              rw [List.append_assoc]
              rw [failStops_append_nb (prnb _)]
              simp only [List.singleton_append, failStops, hs, if_true, List.append_eq, List.nil_append]
              rw [failStops_append_nb (by simp [noBuildsys, List.all_map, buildsysOf])]
              exact ih _ _ _
            · simp only [Bool.not_eq_true] at hcpb
              simp only [hcpb, Bool.false_eq_true, if_false]
              rw [failStops_append_nb (by simp [noBuildsys_append, hdrnb, pdnb, ht3])]
              rw [List.append_assoc]
              rw [failStops_append_nb (prnb _)]
              simp only [List.singleton_append, failStops, hs, if_true, List.append_eq, List.nil_append]
              exact ih _ _ _
          · simp only [Bool.not_eq_true] at hs
            simp only [hs, Bool.false_eq_true, if_false]
            rw [failStops_append_nb (by simp [noBuildsys_append, hdrnb, pdnb, ht3])]
            rw [failStops_append_nb (prnb _)]
            simp [failStops, hs]

/-! ## The scripts the loop accumulates, read off the trace -/

theorem accumScripts_append (t t' : List Ev) :
    accumScripts (t ++ t') = accumScripts t ++ accumScripts t' := by
  simp [accumScripts]

theorem accumScripts_nb {t : List Ev} (h : noBuildsys t = true) :
    accumScripts t = [] := by
  unfold accumScripts
  rw [List.filterMap_eq_nil_iff]
  intro e he
  unfold noBuildsys at h
  rw [List.all_eq_true] at h
  have h2 := h e he
  cases e <;> simp_all [buildsysOf, scriptOf]

/-- The scripts returned by a completed build loop are the starting
accumulator extended by exactly the truthy scripts of the successful
adapter invocations in the trace, in order. -/
theorem buildUnits_scripts_accum (cfg : Config) (bb bi : String) (clean install : Bool)
    (total : Nat) :
    ∀ (builds : List Build) (i : Nat) (sc : List String) (w : World) (b : Bool)
      (sc' : List String),
      ((buildUnits cfg bb bi clean install total i sc builds) w).1 = .ok (b, sc') →
      sc' = sc ++ accumScripts ((buildUnits cfg bb bi clean install total i sc builds) w).2.2 := by
  have hdrnb : ∀ s h, noBuildsys (hdrTrace cfg s h) = true := fun s h =>
    hdrTrace_all cfg s h _ (fun _ => rfl)
  have prnb : ∀ s, noBuildsys (prTrace cfg s) = true := fun s =>
    prTrace_all cfg s _ (fun _ => rfl)
  have pdnb : ∀ cl bp w, noBuildsys (prepDir cl bp w).2 = true := fun cl bp w =>
    prepDir_all cl bp w _ (fun _ => rfl) (fun _ => rfl)
  have aqnb : ∀ req q w, noBuildsys (acquireRes cfg req q w).2.2 = true := fun req q w =>
    acquireRes_all cfg req q w _ (fun _ => rfl) (fun _ => rfl) (fun _ _ => rfl)
      (fun _ => rfl) (fun _ _ => rfl)
  intro builds
  induction builds with
  | nil =>
    intro i sc w b sc' hres
    have hres2 : Except.ok (true, sc) = Except.ok (b, sc') := hres
    injection hres2 with h1
    injection h1 with hb hsc
    subst hsc
    simp [buildUnits, M.pure, accumScripts]
  | cons bld rest ih =>
    intro i sc w b sc' hres
    rw [buildUnits_cons_run] at hres ⊢
    revert hres
    cases hbp : pjoinVal bb bld.subdir with
    | error e => intro hres; exact Except.noConfusion hres
    | ok build_path =>
      dsimp only
      cases hip : pjoinVal bi bld.subdir with
      | error e => intro hres; exact Except.noConfusion hres
      | ok install_path =>
        dsimp only
        rcases hacq : acquireRes cfg bld.requires (pjoin build_path "build.rxt")
          (prepDir clean build_path w).1 with ⟨acqr, w3, t3⟩
        have ht3 : noBuildsys t3 = true := by
          have h2 := aqnb bld.requires (pjoin build_path "build.rxt")
            (prepDir clean build_path w).1
          rw [hacq] at h2
          exact h2
        cases acqr with
        | error e => intro hres; exact Except.noConfusion hres
        | ok c =>
          unfold unitCont
          by_cases hs : (cfg.buildsys c build_path install_path install).success = true
          · simp only [hs, if_true]
            intro hres
            have ihr := ih (i + 1) _ w3 b sc' hres
            rw [ihr]
            simp only [accumScripts_append, accumScripts_nb (hdrnb _ _),
              accumScripts_nb (pdnb _ _ _), accumScripts_nb ht3,
              accumScripts_nb (prnb _), List.nil_append, List.append_nil]
            have hcopies : accumScripts
                (if (install &&
                    !((cfg.buildsys c build_path install_path install).extra_files ++
                      [pjoin build_path "build.rxt"]).isEmpty) = true then
                  ((cfg.buildsys c build_path install_path install).extra_files ++
                    [pjoin build_path "build.rxt"]).map
                      (fun f => Ev.copyEv f install_path)
                else []) = [] := by
              split
              · rw [accumScripts_nb (by simp [noBuildsys, List.all_map, buildsysOf])]
              · rfl
            rw [hcopies, List.nil_append]
            have hbs : accumScripts [Ev.buildsysEv c build_path install_path install
                (cfg.buildsys c build_path install_path install)] =
                match (cfg.buildsys c build_path install_path install).build_env_script with
                | some script => if script = "" then [] else [script]
                | none => [] := by
              simp only [accumScripts, List.filterMap, scriptOf, hs, if_true]
              cases hscript : (cfg.buildsys c build_path install_path install).build_env_script with
              | none => rfl
              | some s =>
                by_cases hse : s = ""
                · simp [hse]
                · simp [hse]
            rw [hbs]
            cases hscript : (cfg.buildsys c build_path install_path install).build_env_script with
            | none => simp
            | some s =>
              by_cases hse : s = ""
              · simp [hse]
              · simp [hse]
          · simp only [Bool.not_eq_true] at hs
            simp only [hs, Bool.false_eq_true, if_false]
            intro hres
            have hres2 : Except.ok (false, sc) = Except.ok (b, sc') := hres
            injection hres2 with h1
            injection h1 with hb hsc
            subst hsc
            simp only [accumScripts_append, accumScripts_nb (hdrnb _ _),
              accumScripts_nb (pdnb _ _ _), accumScripts_nb ht3,
              accumScripts_nb (prnb _), List.nil_append, List.append_nil]
            have hbs : accumScripts [Ev.buildsysEv c build_path install_path install
                (cfg.buildsys c build_path install_path install)] = [] := by
              simp [accumScripts, List.filterMap, scriptOf, hs]
            rw [hbs]
            simp

/-! ## A failing adapter invocation forces the loop outcome `False` -/

theorem not_failing_of_nb {t : List Ev} {e : Ev} (h : noBuildsys t = true) (he : e ∈ t) :
    isFailingBuildsys e = false := by
  unfold noBuildsys at h
  rw [List.all_eq_true] at h
  have h2 := h e he
  cases e <;> simp_all [buildsysOf, isFailingBuildsys]

theorem buildUnits_fail_false (cfg : Config) (bb bi : String) (clean install : Bool)
    (total : Nat) :
    ∀ (builds : List Build) (i : Nat) (sc : List String) (w : World),
      (∃ e ∈ ((buildUnits cfg bb bi clean install total i sc builds) w).2.2,
        isFailingBuildsys e = true) →
      ∃ sc', ((buildUnits cfg bb bi clean install total i sc builds) w).1 = .ok (false, sc') := by
  have hdrnb : ∀ s h, noBuildsys (hdrTrace cfg s h) = true := fun s h =>
    hdrTrace_all cfg s h _ (fun _ => rfl)
  have prnb : ∀ s, noBuildsys (prTrace cfg s) = true := fun s =>
    prTrace_all cfg s _ (fun _ => rfl)
  have pdnb : ∀ cl bp w, noBuildsys (prepDir cl bp w).2 = true := fun cl bp w =>
    prepDir_all cl bp w _ (fun _ => rfl) (fun _ => rfl)
  have aqnb : ∀ req q w, noBuildsys (acquireRes cfg req q w).2.2 = true := fun req q w =>
    acquireRes_all cfg req q w _ (fun _ => rfl) (fun _ => rfl) (fun _ _ => rfl)
      (fun _ => rfl) (fun _ _ => rfl)
  intro builds
  induction builds with
  | nil =>
    intro i sc w h
    rcases h with ⟨e, he, _⟩
    exact absurd he (by simp [buildUnits, M.pure])
  | cons bld rest ih =>
    intro i sc w
    rw [buildUnits_cons_run]
    cases hbp : pjoinVal bb bld.subdir with
    | error e =>
      dsimp only
      intro h
      rcases h with ⟨ev, hev, hfail⟩
      rw [not_failing_of_nb (hdrnb _ _) hev] at hfail
      exact Bool.noConfusion hfail
    | ok build_path =>
      dsimp only
      cases hip : pjoinVal bi bld.subdir with
      | error e =>
        dsimp only
        intro h
        rcases h with ⟨ev, hev, hfail⟩
        rw [not_failing_of_nb (hdrnb _ _) hev] at hfail
        exact Bool.noConfusion hfail
      | ok install_path =>
        dsimp only
        rcases hacq : acquireRes cfg bld.requires (pjoin build_path "build.rxt")
          (prepDir clean build_path w).1 with ⟨acqr, w3, t3⟩
        have ht3 : noBuildsys t3 = true := by
          have h2 := aqnb bld.requires (pjoin build_path "build.rxt")
            (prepDir clean build_path w).1
          rw [hacq] at h2
          exact h2
        cases acqr with
        | error e =>
          dsimp only
          intro h
          rcases h with ⟨ev, hev, hfail⟩
          have hnb : noBuildsys (hdrTrace cfg
              ("Building " ++ toString (i + 1) ++ "/" ++ toString total ++ "...") 2 ++
              ((prepDir clean build_path w).2 ++ t3)) = true := by
            simp only [noBuildsys_append, hdrnb, pdnb, ht3, Bool.and_self]
          rw [not_failing_of_nb hnb hev] at hfail
          exact Bool.noConfusion hfail
        | ok c =>
          unfold unitCont
          by_cases hs : (cfg.buildsys c build_path install_path install).success = true
          · simp only [hs, if_true]
            intro h
            rcases h with ⟨ev, hev, hfail⟩
            rw [List.mem_append] at hev
            rcases hev with hev | hev
            · have hnb : noBuildsys (hdrTrace cfg
                  ("Building " ++ toString (i + 1) ++ "/" ++ toString total ++ "...") 2 ++
                  ((prepDir clean build_path w).2 ++ t3)) = true := by
                simp only [noBuildsys_append, hdrnb, pdnb, ht3, Bool.and_self]
              rw [not_failing_of_nb hnb hev] at hfail
              exact Bool.noConfusion hfail
            · rw [List.mem_append] at hev
              rcases hev with hev | hev
              · rw [List.mem_append] at hev
                rcases hev with hev | hev
                · rw [not_failing_of_nb (prnb _) hev] at hfail
                  exact Bool.noConfusion hfail
                · rw [List.mem_singleton] at hev
                  subst hev
                  simp [isFailingBuildsys, hs] at hfail
              · rw [List.mem_append] at hev
                rcases hev with hev | hev
                · have hnb : noBuildsys (if (install &&
                      !((cfg.buildsys c build_path install_path install).extra_files ++
                        [pjoin build_path "build.rxt"]).isEmpty) = true then
                      ((cfg.buildsys c build_path install_path install).extra_files ++
                        [pjoin build_path "build.rxt"]).map
                          (fun f => Ev.copyEv f install_path)
                    else []) = true := by
                    split
                    · simp [noBuildsys, List.all_map, buildsysOf]
                    · rfl
                  rw [not_failing_of_nb hnb hev] at hfail
                  exact Bool.noConfusion hfail
                · have hk := ih (i + 1) _ w3 ⟨ev, hev, hfail⟩
                  exact hk
          · simp only [Bool.not_eq_true] at hs
            simp only [hs, Bool.false_eq_true, if_false]
            intro _
            exact ⟨sc, rfl⟩

/-! ## Characterizations of `_build`, `_get_last_release` and `release` -/

theorem build_impl_run (cfg : Config) (ip bb : String) (clean install : Bool) (w : World) :
    build_impl cfg ip bb clean install w =
      (match buildUnits cfg bb (get_base_install_path cfg ip) clean install
        (get_build_list cfg).length 0 [] (get_build_list cfg) w with
      | (.error e, w1, t1) => (.error e, w1, t1)
      | (.ok (b, sc), w1, t1) =>
        if b then
          (.ok true, w1, t1 ++
            (if sc.isEmpty then
              prTrace cfg ("\nAll " ++ toString (get_build_list cfg).length ++
                " build(s) were successful.\n")
            else
              prTrace cfg "\nThe following executable script(s) have been created:" ++
                (prTrace cfg (String.intercalate "\n" sc) ++ prTrace cfg "")))
        else (.ok false, w1, t1)) := by
  unfold build_impl
  simp only [bind_is_M_bind]
  rcases hk : buildUnits cfg bb (get_base_install_path cfg ip) clean install
    (get_build_list cfg).length 0 [] (get_build_list cfg) w with ⟨kr, w1, t1⟩
  cases kr with
  | error e => rw [M.bind_of_error hk]
  | ok p =>
    rcases p with ⟨b, sc⟩
    rw [M.bind_of_run hk]
    cases b with
    | false => simp [M.pure]
    | true =>
      by_cases hsc : sc.isEmpty = true
      · simp [hsc, M.bind_pr, M.pure]
      · simp only [Bool.not_eq_true] at hsc
        simp [hsc, M.bind_pr, M.pure, List.append_assoc]

theorem release_run (cfg : Config) (w : World) :
    release cfg w =
      (if cfg.vcs.validate_ok then
        match get_last_release cfg true w with
        | (.error e, w1, t1) => (.error e, w1, .validateEv :: t1)
        | (.ok last, w1, t1) =>
          match verifyPass cfg cfg.release_packages_path (releaseBuildPath cfg) w1 with
          | (.error e, w2, t2) =>
            (.error e, w2, .validateEv :: (t1 ++ (hdrTrace cfg "Building..." 1 ++ t2)))
          | (.ok b1, w2, t2) =>
            if b1 then
              match installPass cfg cfg.release_packages_path (releaseBuildPath cfg) w2 with
              | (.error e, w3, t3) =>
                (.error e, w3, .validateEv :: (t1 ++ (hdrTrace cfg "Building..." 1 ++
                  (t2 ++ (hdrTrace cfg "Releasing..." 1 ++ t3)))))
              | (.ok b2, w3, t3) =>
                if b2 then
                  if cfg.vcs.create_tag_ok then
                    (.ok true,
                      w3.writeFile (releaseRecordPath cfg) (.rel (releaseInfoOf cfg last)),
                      .validateEv :: (t1 ++ (hdrTrace cfg "Building..." 1 ++
                        (t2 ++ (hdrTrace cfg "Releasing..." 1 ++ (t3 ++
                          [.writeRecordEv (releaseRecordPath cfg) (releaseInfoOf cfg last),
                            .tagEv cfg.release_message]))))))
                  else
                    (.error (.vcsError "tag creation failed"),
                      w3.writeFile (releaseRecordPath cfg) (.rel (releaseInfoOf cfg last)),
                      .validateEv :: (t1 ++ (hdrTrace cfg "Building..." 1 ++
                        (t2 ++ (hdrTrace cfg "Releasing..." 1 ++ (t3 ++
                          [.writeRecordEv (releaseRecordPath cfg) (releaseInfoOf cfg last)]))))))
                else
                  (.ok false, w3, .validateEv :: (t1 ++ (hdrTrace cfg "Building..." 1 ++
                    (t2 ++ (hdrTrace cfg "Releasing..." 1 ++ t3)))))
            else
              (.ok false, w2, .validateEv :: (t1 ++ (hdrTrace cfg "Building..." 1 ++ t2)))
      else (.error (.vcsError "dirty working tree"), w, [.validateEv])) := by
  unfold release
  simp only [bind_is_M_bind]
  rw [M.bind_validate]
  by_cases hv : cfg.vcs.validate_ok = true
  · simp only [hv, if_true]
    rcases hglr : get_last_release cfg true w with ⟨glr, w1, t1⟩
    cases glr with
    | error e =>
      rw [M.bind_of_error hglr]
      try simp [hglr]
    | ok last =>
      rw [M.bind_of_run hglr]
      try rw [hglr]
      try dsimp only
      rw [M.bind_hdr]
      rcases hvp : verifyPass cfg cfg.release_packages_path (releaseBuildPath cfg) w1
        with ⟨vr, w2, t2⟩
      cases vr with
      | error e =>
        rw [M.bind_of_error hvp]
        try rw [hvp]
        try simp
      | ok b1 =>
        rw [M.bind_of_run hvp]
        try rw [hvp]
        try dsimp only
        cases b1 with
        | false => simp [M.pure]
        | true =>
          simp only [Bool.not_true, Bool.false_eq_true, if_false]
          rw [M.bind_hdr]
          rcases hipr : installPass cfg cfg.release_packages_path (releaseBuildPath cfg) w2
            with ⟨ir, w3, t3⟩
          cases ir with
          | error e =>
            rw [M.bind_of_error hipr]
            try rw [hipr]
            try simp [List.append_assoc]
          | ok b2 =>
            rw [M.bind_of_run hipr]
            try rw [hipr]
            try dsimp only
            cases b2 with
            | false => simp [M.pure, List.append_assoc]
            | true =>
              simp only [Bool.not_true, Bool.false_eq_true, if_false]
              rw [M.bind_writeRecord]
              rw [M.bind_createTag]
              by_cases ht : cfg.vcs.create_tag_ok = true
              · simp [ht, M.pure, List.append_assoc, releaseInfoOf, releaseRecordPath]
              · simp only [Bool.not_eq_true] at ht
                simp [ht, M.pure, List.append_assoc, releaseInfoOf, releaseRecordPath]
  · simp only [Bool.not_eq_true] at hv
    simp [hv]

/-! ## Facts about `_get_last_release` -/

theorem glr_loop_world (ver : Nat) (el : Bool) :
    ∀ (pkgs : List InstalledPkg) (w : World),
      ((get_last_release_loop ver el pkgs) w).2.1 = w := by
  intro pkgs
  induction pkgs with
  | nil => intro w; rfl
  | cons pkg rest ih =>
    intro w
    unfold get_last_release_loop
    by_cases hge : pkg.version ≥ ver
    · by_cases hel : el = true
      · simp [hge, hel, M.throw]
      · simp only [Bool.not_eq_true] at hel
        subst hel
        simp only [hge, if_true, Bool.false_eq_true, if_false]
        exact ih w
    · simp only [hge, if_false]
      simp only [bind_is_M_bind]
      rw [M.bind_readRel]
      rcases hr : w.readFile (pjoin (dirname pkg.metafile) "release.yaml") with _ | v
      · simp
      · cases v <;> simp [M.pure]

theorem glr_loop_all (ver : Nat) (el : Bool) (p : Ev → Bool)
    (hrd : ∀ q, p (.readRelEv q) = true) :
    ∀ (pkgs : List InstalledPkg) (w : World),
      ((get_last_release_loop ver el pkgs) w).2.2.all p = true := by
  intro pkgs
  induction pkgs with
  | nil => intro w; rfl
  | cons pkg rest ih =>
    intro w
    unfold get_last_release_loop
    by_cases hge : pkg.version ≥ ver
    · by_cases hel : el = true
      · simp [hge, hel, M.throw]
      · simp only [Bool.not_eq_true] at hel
        subst hel
        simp only [hge, if_true, Bool.false_eq_true, if_false]
        exact ih w
    · simp only [hge, if_false]
      simp only [bind_is_M_bind]
      rw [M.bind_readRel]
      rcases hr : w.readFile (pjoin (dirname pkg.metafile) "release.yaml") with _ | v
      · simp
      · cases v <;> simp [M.pure, hrd]

theorem recordBeforeTag_append_ntr {t : List Ev} (h : noTagRec t = true) (t' : List Ev) :
    recordBeforeTag (t ++ t') = recordBeforeTag t' := by
  induction t with
  | nil => rfl
  | cons e rest ih =>
    rw [List.cons_append]
    unfold noTagRec at h
    simp only [List.all_cons, Bool.and_eq_true] at h
    cases e with
    | tagEv m => simp [isTag] at h
    | writeRecordEv q info => simp [isRecord] at h
    | prEv s => simp only [recordBeforeTag]; exact ih h.2
    | printInfoEv c => simp only [recordBeforeTag]; exact ih h.2
    | validateEv => simp only [recordBeforeTag]; exact ih h.2
    | rmtreeEv q => simp only [recordBeforeTag]; exact ih h.2
    | makedirsEv q => simp only [recordBeforeTag]; exact ih h.2
    | resolveEv rq t => simp only [recordBeforeTag]; exact ih h.2
    | saveRxtEv q c => simp only [recordBeforeTag]; exact ih h.2
    | loadRxtEv q => simp only [recordBeforeTag]; exact ih h.2
    | readRelEv q => simp only [recordBeforeTag]; exact ih h.2
    | copyEv s d => simp only [recordBeforeTag]; exact ih h.2
    | buildsysEv c bp ip inst ret => simp only [recordBeforeTag]; exact ih h.2

theorem recordBeforeTag_of_ntr {t : List Ev} (h : noTagRec t = true) :
    recordBeforeTag t = true := by
  have h2 := recordBeforeTag_append_ntr h []
  rw [List.append_nil] at h2
  rw [h2]
  rfl

theorem noTagRec_append {t t' : List Ev} :
    noTagRec (t ++ t') = (noTagRec t && noTagRec t') := by
  simp [noTagRec, List.all_append]

theorem buildUnits_ntr (cfg : Config) (bb bi : String) (clean install : Bool)
    (total : Nat) (builds : List Build) (i : Nat) (sc : List String) (w : World) :
    noTagRec ((buildUnits cfg bb bi clean install total i sc builds) w).2.2 = true :=
  buildUnits_all cfg bb bi clean install total _ (fun _ => rfl) (fun _ => rfl)
    (fun _ _ => rfl) (fun _ => rfl) (fun _ _ => rfl) (fun _ => rfl) (fun _ => rfl)
    (fun _ _ _ _ => rfl) (fun _ _ _ => rfl) builds i sc w

theorem build_impl_ntr (cfg : Config) (ip bb : String) (clean install : Bool) (w : World) :
    noTagRec ((build_impl cfg ip bb clean install) w).2.2 = true := by
  rw [build_impl_run]
  rcases hk : buildUnits cfg bb (get_base_install_path cfg ip) clean install
    (get_build_list cfg).length 0 [] (get_build_list cfg) w with ⟨kr, w1, t1⟩
  have ht1 : noTagRec t1 = true := by
    have h2 := buildUnits_ntr cfg bb (get_base_install_path cfg ip) clean install
      (get_build_list cfg).length (get_build_list cfg) 0 [] w
    rw [hk] at h2
    exact h2
  cases kr with
  | error e => exact ht1
  | ok p =>
    rcases p with ⟨b, sc⟩
    cases b with
    | false => exact ht1
    | true =>
      dsimp only
      rw [if_pos rfl]
      dsimp only
      rw [noTagRec_append, ht1, Bool.true_and]
      have hpr : ∀ s, noTagRec (prTrace cfg s) = true := fun s =>
        prTrace_all cfg s _ (fun _ => rfl)
      split
      · exact hpr _
      · rw [noTagRec_append, noTagRec_append, hpr, hpr, hpr]
        rfl

theorem glr_ntr (cfg : Config) (el : Bool) (w : World) :
    noTagRec ((get_last_release cfg el) w).2.2 = true :=
  glr_loop_all _ el _ (fun _ => rfl) cfg.installed w

theorem hdrTrace_ntr (cfg : Config) (s : String) (h : Nat) :
    noTagRec (hdrTrace cfg s h) = true :=
  hdrTrace_all cfg s h _ (fun _ => rfl)

theorem verifyPass_ntr (cfg : Config) (ip bb : String) (w : World) :
    noTagRec ((verifyPass cfg ip bb) w).2.2 = true :=
  build_impl_ntr cfg ip bb true false w

theorem installPass_ntr (cfg : Config) (ip bb : String) (w : World) :
    noTagRec ((installPass cfg ip bb) w).2.2 = true :=
  build_impl_ntr cfg ip bb false true w

theorem not_mem_record_of_ntr {t : List Ev} {q : String} {info : ReleaseInfo}
    (h : noTagRec t = true) (hm : Ev.writeRecordEv q info ∈ t) : False := by
  unfold noTagRec at h
  rw [List.all_eq_true] at h
  have h2 := h _ hm
  simp [isRecord, isTag] at h2

theorem World.readFile_writeFile (w : World) (p : String) (v : FileVal) :
    (w.writeFile p v).readFile p = some v := by
  simp [World.readFile, World.writeFile, lookupFile]

/-- Claim C2: in every execution of `release`, the VCS tag is created only
after the release record (revision, changelog, previous_version,
previous_revision) has been written to the release path — no tag event
ever precedes the record write in the trace; and if the tag-creation call
fails after the protocol reached the record step, the release record file
has already been written and remains present in the final filesystem,
the release failing with the tag error. -/
theorem C2_tag_after_record (cfg : Config) (w : World) :
    recordBeforeTag (rtrace (release cfg) w) = true ∧
    (cfg.vcs.create_tag_ok = false →
      (∃ q info, Ev.writeRecordEv q info ∈ rtrace (release cfg) w) →
      (∃ info, (rworld (release cfg) w).readFile (releaseRecordPath cfg) =
          some (.rel info)) ∧
        rres (release cfg) w = .error (.vcsError "tag creation failed")) := by
  unfold rres rworld rtrace
  rw [release_run]
  by_cases hv : cfg.vcs.validate_ok = true
  · simp only [hv, if_true]
    rcases hglr : get_last_release cfg true w with ⟨glr, w1, t1⟩
    have ht1 : noTagRec t1 = true := by
      have h2 := glr_ntr cfg true w
      rw [hglr] at h2
      exact h2
    cases glr with
    | error e =>
      dsimp only
      constructor
      · simp only [recordBeforeTag]
        exact recordBeforeTag_of_ntr ht1
      · intro _ hmem
        rcases hmem with ⟨q, info, hmem⟩
        rcases List.mem_cons.mp hmem with h | h
        · exact Ev.noConfusion h
        · exact absurd h (fun h => not_mem_record_of_ntr ht1 h)
    | ok last =>
      dsimp only
      rcases hvp : verifyPass cfg cfg.release_packages_path (releaseBuildPath cfg) w1
        with ⟨vr, w2, t2⟩
      have ht2 : noTagRec t2 = true := by
        have h2 := verifyPass_ntr cfg cfg.release_packages_path (releaseBuildPath cfg) w1
        rw [hvp] at h2
        exact h2
      have hntr2 : noTagRec (t1 ++ (hdrTrace cfg "Building..." 1 ++ t2)) = true := by
        rw [noTagRec_append, noTagRec_append, ht1, ht2, hdrTrace_ntr]
        rfl
      cases vr with
      | error e =>
        dsimp only
        constructor
        · simp only [recordBeforeTag]
          exact recordBeforeTag_of_ntr hntr2
        · intro _ hmem
          rcases hmem with ⟨q, info, hmem⟩
          rcases List.mem_cons.mp hmem with h | h
          · exact Ev.noConfusion h
          · exact absurd h (fun h => not_mem_record_of_ntr hntr2 h)
      | ok b1 =>
        cases b1 with
        | false =>
          dsimp only
          constructor
          · simp only [recordBeforeTag]
            exact recordBeforeTag_of_ntr hntr2
          · intro _ hmem
            rcases hmem with ⟨q, info, hmem⟩
            rcases List.mem_cons.mp hmem with h | h
            · exact Ev.noConfusion h
            · exact absurd h (fun h => not_mem_record_of_ntr hntr2 h)
        | true =>
          dsimp only
          rw [if_pos rfl]
          rcases hipr : installPass cfg cfg.release_packages_path (releaseBuildPath cfg) w2
            with ⟨ir, w3, t3⟩
          have ht3 : noTagRec t3 = true := by
            have h2 := installPass_ntr cfg cfg.release_packages_path (releaseBuildPath cfg) w2
            rw [hipr] at h2
            exact h2
          have hntr3 : noTagRec (t1 ++ (hdrTrace cfg "Building..." 1 ++
              (t2 ++ (hdrTrace cfg "Releasing..." 1 ++ t3)))) = true := by
            rw [noTagRec_append, noTagRec_append, noTagRec_append, noTagRec_append,
              ht1, ht2, ht3, hdrTrace_ntr, hdrTrace_ntr]
            rfl
          cases ir with
          | error e =>
            dsimp only
            constructor
            · simp only [recordBeforeTag]
              exact recordBeforeTag_of_ntr hntr3
            · intro _ hmem
              rcases hmem with ⟨q, info, hmem⟩
              rcases List.mem_cons.mp hmem with h | h
              · exact Ev.noConfusion h
              · exact absurd h (fun h => not_mem_record_of_ntr hntr3 h)
          | ok b2 =>
            cases b2 with
            | false =>
              dsimp only
              constructor
              · simp only [recordBeforeTag]
                exact recordBeforeTag_of_ntr hntr3
              · intro _ hmem
                rcases hmem with ⟨q, info, hmem⟩
                rcases List.mem_cons.mp hmem with h | h
                · exact Ev.noConfusion h
                · exact absurd h (fun h => not_mem_record_of_ntr hntr3 h)
            | true =>
              dsimp only
              rw [if_pos rfl]
              by_cases ht : cfg.vcs.create_tag_ok = true
              · simp only [ht, if_true]
                constructor
                · simp only [recordBeforeTag]
                  rw [recordBeforeTag_append_ntr ht1, recordBeforeTag_append_ntr
                    (hdrTrace_ntr cfg "Building..." 1), recordBeforeTag_append_ntr ht2,
                    recordBeforeTag_append_ntr (hdrTrace_ntr cfg "Releasing..." 1),
                    recordBeforeTag_append_ntr ht3]
                  rfl
                · intro htf
                  exact absurd htf (by simp)
              · simp only [Bool.not_eq_true] at ht
                simp only [ht, Bool.false_eq_true, if_false]
                constructor
                · simp only [recordBeforeTag]
                  rw [recordBeforeTag_append_ntr ht1, recordBeforeTag_append_ntr
                    (hdrTrace_ntr cfg "Building..." 1), recordBeforeTag_append_ntr ht2,
                    recordBeforeTag_append_ntr (hdrTrace_ntr cfg "Releasing..." 1),
                    recordBeforeTag_append_ntr ht3]
                  rfl
                · intro _ _
                  exact ⟨⟨releaseInfoOf cfg last, World.readFile_writeFile w3 _ _⟩,
                    by trivial⟩
  · simp only [Bool.not_eq_true] at hv
    simp only [hv, Bool.false_eq_true, if_false]
    constructor
    · rfl
    · intro _ hmem
      rcases hmem with ⟨q, info, hmem⟩
      rcases List.mem_cons.mp hmem with h | h
      · exact Ev.noConfusion h
      · exact absurd h (by simp)

/-- Witness for C2: a concrete release whose tag creation fails after the
record was written. -/
theorem C2_witness :
    recordBeforeTag (rtrace (release cfgC2) wC2) = true ∧
    ((∃ info, (rworld (release cfgC2) wC2).readFile (releaseRecordPath cfgC2) =
        some (.rel info)) ∧
      rres (release cfgC2) wC2 = .error (.vcsError "tag creation failed")) :=
  ⟨(C2_tag_after_record cfgC2 wC2).1,
    (C2_tag_after_record cfgC2 wC2).2 (by decide)
      ⟨releaseRecordPath cfgC2, ⟨some "r1", "lg", none, none⟩, by decide⟩⟩

/-! ## Claim C10: first release of a package -/

/-- Claim C10: when no previously released version of the package exists at
the release install path, the pre-build lookup returns an empty prior
release with no error; and a release that then succeeds writes a record
whose previous_version and previous_revision are both none, whose revision
is the current revision, and whose changelog is the changelog-since query
applied to a none revision (full history). -/
theorem C10_first_release (cfg : Config) (w : World) (hnone : cfg.installed = []) :
    rres (get_last_release cfg true) w = .ok (none, none) ∧
    (rres (release cfg) w = .ok true →
      (rworld (release cfg) w).readFile (releaseRecordPath cfg) =
        some (.rel ⟨some cfg.vcs.current_revision, cfg.vcs.changelog none, none, none⟩)) := by
  have hglr : get_last_release cfg true w = (.ok (none, none), w, []) := by
    unfold get_last_release
    rw [hnone]
    rfl
  constructor
  · unfold rres
    rw [hglr]
  · unfold rres rworld
    rw [release_run]
    by_cases hv : cfg.vcs.validate_ok = true
    · simp only [hv, if_true]
      rw [hglr]
      dsimp only
      rcases hvp : verifyPass cfg cfg.release_packages_path (releaseBuildPath cfg) w
        with ⟨vr, w2, t2⟩
      cases vr with
      | error e => intro h; exact Except.noConfusion h
      | ok b1 =>
        cases b1 with
        | false => intro h; simp at h
        | true =>
          dsimp only
          rw [if_pos rfl]
          rcases hipr : installPass cfg cfg.release_packages_path (releaseBuildPath cfg) w2
            with ⟨ir, w3, t3⟩
          cases ir with
          | error e => intro h; exact Except.noConfusion h
          | ok b2 =>
            cases b2 with
            | false => intro h; simp at h
            | true =>
              dsimp only
              rw [if_pos rfl]
              by_cases ht : cfg.vcs.create_tag_ok = true
              · simp only [ht, if_true]
                intro _
                exact World.readFile_writeFile w3 _ _
              · simp only [Bool.not_eq_true] at ht
                simp only [ht, Bool.false_eq_true, if_false]
                intro h
                exact Except.noConfusion h
    · simp only [Bool.not_eq_true] at hv
      simp only [hv, Bool.false_eq_true, if_false]
      intro h
      exact Except.noConfusion h

/-- Witness for C10: a concrete first release succeeds and writes the
expected record. -/
theorem C10_witness :
    rres (get_last_release cfgC10 true) wC10 = .ok (none, none) ∧
    (rworld (release cfgC10) wC10).readFile (releaseRecordPath cfgC10) =
      some (.rel ⟨some "r1", "full history", none, none⟩) :=
  ⟨(C10_first_release cfgC10 wC10 rfl).1,
    (C10_first_release cfgC10 wC10 rfl).2 (by decide)⟩

/-- Counterexample to C1 as stated: an installed version (5) at the
release path is greater than or equal to the descriptor's version (3),
yet — with the lower version (1) enumerated first — `release` succeeds and
performs build, record-write and tag side effects: the scan returns at the
first enumerated version below the target, so the violation is not
detected and detection depends on the enumeration order. -/
theorem C1_counterexample :
    (∃ pkg ∈ cfgC1.installed, pkg.version ≥ 3) ∧
    rres (release cfgC1) wC1 = .ok true ∧
    (rtrace (release cfgC1) wC1).filter isBuildSideEffect ≠ [] ∧
    Ev.tagEv none ∈ rtrace (release cfgC1) wC1 := by
  refine ⟨⟨⟨5, "rel/foo/5/package.yaml"⟩, by decide, by decide⟩, by decide, by decide, by decide⟩

/-- Claim C1 (amended): the pre-build lookup examines only the first
enumerated installed package, so the monotonicity check is complete only
when every installed version at or above the descriptor's is enumerated
before any lower one (in particular under descending-version enumeration).
Amended: if the first enumerated installed package's version is greater
than or equal to the descriptor's version, release fails with
`ReleaseError` before any build, install, record-write, or tag side
effect — the run performs only the repository validation. -/
theorem C1_amended (cfg : Config) (w : World) (q : InstalledPkg)
    (rest : List InstalledPkg) (hv : cfg.vcs.validate_ok = true)
    (hinst : cfg.installed = q :: rest) (hge : q.version ≥ cfg.version.getD 0) :
    release cfg w =
      (.error (.releaseError
        ("cannot release - a newer or equal package version already exists: " ++ q.metafile)),
        w, [.validateEv]) := by
  have hglr : get_last_release cfg true w =
      (.error (.releaseError
        ("cannot release - a newer or equal package version already exists: " ++ q.metafile)),
        w, []) := by
    unfold get_last_release
    rw [hinst]
    unfold get_last_release_loop
    simp [hge, M.throw]
  rw [release_run]
  simp only [hv, if_true]
  rw [hglr]

/-- Witness for the amended C1: with the violating version enumerated
first, release raises ReleaseError with only the validation event. -/
theorem C1_witness :
    release cfgC1b wC1 =
      (.error (.releaseError
        ("cannot release - a newer or equal package version already exists: rel/foo/5/package.yaml")),
        wC1, [.validateEv]) :=
  C1_amended cfgC1b wC1 ⟨5, "rel/foo/5/package.yaml"⟩ [⟨1, "rel/foo/1/package.yaml"⟩]
    rfl rfl (by decide)

/-! ## Claim C5: the variant planner -/

/-- Claim C5: for a descriptor with k variants (k > 0) the planner
produces exactly k build units in declaration order, unit i having
index i and requirements build_requirements ++ requirements ++ variant i;
for a descriptor with no variants it produces exactly one unit with no
index, empty subdirectory, and requirements build_requirements ++
requirements. -/
theorem C5_variant_planner (cfg : Config) :
    ((get_build_list cfg).length = if cfg.variants.isEmpty then 1 else cfg.variants.length) ∧
    (cfg.variants = [] →
      get_build_list cfg = [⟨none, .str "", cfg.build_requires ++ cfg.requires⟩]) ∧
    (∀ (i : Nat) (v : List String), cfg.variants[i]? = some v →
      ∃ b, (get_build_list cfg)[i]? = some b ∧ b.variant_index = some i ∧
        b.requires = cfg.build_requires ++ cfg.requires ++ v) := by
  refine ⟨?_, ?_, ?_⟩
  · unfold get_build_list
    cases hvs : cfg.variants with
    | nil => rfl
    | cons v0 vs => simp [List.enum_length]
  · intro hvs
    unfold get_build_list
    rw [hvs]
  · intro i v hiv
    unfold get_build_list
    cases hvs : cfg.variants with
    | nil =>
      rw [hvs] at hiv
      simp at hiv
    | cons v0 vs =>
      rw [hvs] at hiv
      dsimp only
      rw [List.getElem?_map, List.getElem?_enum, hiv]
      exact ⟨_, rfl, rfl, by simp [List.append_assoc]⟩

/-- Witness for C5 at two concrete descriptors: one with two variants, one
with none. -/
theorem C5_witness :
    (get_build_list cfgC5e = [⟨none, .str "", ["b1", "r1"]⟩]) ∧
    (∃ b, (get_build_list cfgC5)[1]? = some b ∧ b.variant_index = some 1 ∧
      b.requires = ["b1"] ++ ["r1"] ++ ["y"]) :=
  ⟨(C5_variant_planner cfgC5e).2.1 rfl,
    (C5_variant_planner cfgC5).2.2 1 ["y"] (by decide)⟩

/-- C6 evaluated at the failing input: for the variant
["python", "boost"] the planner's subdirectory is the raw Python list
(`os.path.join` applied to the list as its single argument returns the
list unchanged), not the spec's path-joined string "python/boost"
(`subdirSpec`); consequently `_build`'s `os.path.join(base_build_path,
subdir)` raises AttributeError, so no variant package can be built at
all — the spec's joined path is clearly the intent and the code a slip. -/
theorem C6_code_bug_eval :
    (get_build_list cfgC6).map Build.subdir = [.list ["python", "boost"]] ∧
    subdirSpec ["python", "boost"] = "python/boost" ∧
    rres (build_impl cfgC6 "ip" "bb" false false) ⟨[], [], 0⟩ =
      .error (.attributeError "'list' object has no attribute 'startswith'") := by
  refine ⟨by decide, by decide, by decide⟩

/-- Claim C3: for every sequence of build units, if the build-system
adapter reports success = false for some unit, the loop stops
immediately — nothing at all is emitted after the failing adapter
invocation (in particular no environment acquisition and no adapter call
for any later unit) — and the loop outcome is failure (`False` with the
scripts accumulated so far). -/
theorem C3_fail_fast (cfg : Config) (bb bi : String) (clean install : Bool)
    (total : Nat) (builds : List Build) (i : Nat) (sc : List String) (w : World) :
    failStops ((buildUnits cfg bb bi clean install total i sc builds) w).2.2 = true ∧
    ((∃ e ∈ ((buildUnits cfg bb bi clean install total i sc builds) w).2.2,
        isFailingBuildsys e = true) →
      ∃ sc', ((buildUnits cfg bb bi clean install total i sc builds) w).1 =
        .ok (false, sc')) :=
  ⟨buildUnits_failStops cfg bb bi clean install total builds i sc w,
    buildUnits_fail_false cfg bb bi clean install total builds i sc w⟩

/-- Witness for C3, the claim's 3-unit scenario: with unit 2's adapter
failing, exactly units 1 and 2 are attempted (adapter calls at build paths
"bb/a" and "bb/b" only), the result is failure, and nothing follows the
failing invocation. -/
theorem C3_witness :
    (∃ sc', rres (buildUnits cfgC3 "bb" "ii" false false 3 0 [] builds3) wC3 =
      .ok (false, sc')) ∧
    buildsysPaths (rtrace (buildUnits cfgC3 "bb" "ii" false false 3 0 [] builds3) wC3) =
      ["bb/a", "bb/b"] ∧
    rres (buildUnits cfgC3 "bb" "ii" false false 3 0 [] builds3) wC3 = .ok (false, []) :=
  ⟨(C3_fail_fast cfgC3 "bb" "ii" false false 3 builds3 0 [] wC3).2 (by decide),
    by decide, by decide⟩

/-! ## Single-unit runs (the only builds that get past the join bug) -/

/-- With a non-empty variant list, every build attempt crashes at
`os.path.join(base_build_path, subdir)` with AttributeError: the subdir of
every planned unit is a Python list (see `pjoin1`). -/
theorem build_impl_variants_crash (cfg : Config) {v : List String}
    {vs : List (List String)} (hv : cfg.variants = v :: vs) (ip bb : String)
    (clean install : Bool) (w : World) :
    ((build_impl cfg ip bb clean install) w).1 =
      .error (.attributeError "'list' object has no attribute 'startswith'") := by
  rw [build_impl_run]
  have hgb : get_build_list cfg =
      ⟨some 0, pjoin1 (v.map encode_filesystem_name),
        (cfg.build_requires ++ cfg.requires) ++ v⟩ ::
      (vs.enumFrom 1).map (fun iv =>
        ⟨some iv.1, pjoin1 (iv.2.map encode_filesystem_name),
          (cfg.build_requires ++ cfg.requires) ++ iv.2⟩) := by
    unfold get_build_list
    rw [hv]
    rfl
  rw [hgb, buildUnits_cons_run]
  rfl

theorem buildUnits_single_run (cfg : Config) (bb bi : String) (clean install : Bool)
    (total i : Nat) (sc : List String) (rq : List String) (w : World) :
    buildUnits cfg bb bi clean install total i sc [⟨none, .str "", rq⟩] w =
      (let bp := pjoin bb ""
      let ip := pjoin bi ""
      let pd := prepDir clean bp w
      let rxtP := pjoin bp "build.rxt"
      let t0 := hdrTrace cfg
        ("Building " ++ toString (i + 1) ++ "/" ++ toString total ++ "...") 2
      match acquireRes cfg rq rxtP pd.1 with
      | (.error e, w3, t3) => (.error e, w3, t0 ++ (pd.2 ++ t3))
      | (.ok c, w3, t3) =>
        let ret := cfg.buildsys c bp ip install
        let t4 := prTrace cfg "\nInvoking build system..." ++
          [Ev.buildsysEv c bp ip install ret]
        if ret.success then
          let sc2 :=
            match ret.build_env_script with
            | some script => if script = "" then sc else sc ++ [script]
            | none => sc
          let t5 :=
            if install && !(ret.extra_files ++ [rxtP]).isEmpty then
              (ret.extra_files ++ [rxtP]).map (fun f => Ev.copyEv f ip)
            else []
          (.ok (true, sc2), w3, (t0 ++ (pd.2 ++ t3)) ++ (t4 ++ (t5 ++ [])))
        else (.ok (false, sc), w3, (t0 ++ (pd.2 ++ t3)) ++ t4)) := by
  rw [buildUnits_cons_run]
  dsimp only [pjoinVal]
  rcases hacq : acquireRes cfg rq (pjoin (pjoin bb "") "build.rxt")
    (prepDir clean (pjoin bb "") w).1 with ⟨acqr, w3, t3⟩
  cases acqr with
  | error e => rfl
  | ok c =>
    unfold unitCont
    by_cases hs : (cfg.buildsys c (pjoin bb "") (pjoin bi "") install).success = true
    · simp only [hs, if_true]
      by_cases hcp : (install &&
          !((cfg.buildsys c (pjoin bb "") (pjoin bi "") install).extra_files ++
            [pjoin (pjoin bb "") "build.rxt"]).isEmpty) = true
      · simp only [hcp, if_true]
        rfl
      · simp only [Bool.not_eq_true] at hcp
        simp only [hcp, Bool.false_eq_true, if_false]
        rfl
    · simp only [Bool.not_eq_true] at hs
      simp only [hs, Bool.false_eq_true, if_false]

theorem acquireRes_ok_readFile {cfg : Config} {rq : List String} {p : String}
    {w : World} {c : ResolvedContext} {w3 : World} {t3 : List Ev}
    (h : acquireRes cfg rq p w = (.ok c, w3, t3)) :
    w3.readFile p = some (.rxt c) := by
  unfold acquireRes at h
  by_cases he : w.pathExists p = true
  · rw [if_pos he] at h
    rcases hr : w.readFile p with _ | v
    · rw [hr] at h
      exact Except.noConfusion (congrArg Prod.fst h)
    · cases v with
      | rxt c0 =>
        rw [hr] at h
        have hc : c0 = c := by
          have h2 := congrArg Prod.fst h
          exact (Except.ok.injEq _ _).mp h2
        have hw : w = w3 := congrArg (fun x => x.2.1) h
        rw [← hw, hr, hc]
      | rel i =>
        rw [hr] at h
        exact Except.noConfusion (congrArg Prod.fst h)
      | blob o =>
        rw [hr] at h
        exact Except.noConfusion (congrArg Prod.fst h)
  · simp only [Bool.not_eq_true] at he
    rw [he] at h
    simp only [Bool.false_eq_true, if_false] at h
    have hc : ResolvedContext.mk rq w.time = c := by
      have h2 := congrArg Prod.fst h
      exact (Except.ok.injEq _ _).mp h2
    have hw : ({ w with time := w.time + 1 } : World).writeFile p (.rxt ⟨rq, w.time⟩) = w3 :=
      congrArg (fun x => x.2.1) h
    rw [← hw, hc]
    exact World.readFile_writeFile _ _ _
  
theorem acquireRes_hit {w : World} {p : String} {c : ResolvedContext}
    (cfg : Config) (rq : List String) (hr : w.readFile p = some (.rxt c)) :
    acquireRes cfg rq p w =
      (.ok c, w, prTrace cfg "Loading existing environment context..." ++ [.loadRxtEv p]) := by
  unfold acquireRes
  have he : w.pathExists p = true := by
    unfold World.pathExists
    rw [hr]
    simp
  rw [if_pos he, hr]

theorem prepDir_false_files (bp : String) (w : World) :
    ((prepDir false bp w).1).files = w.files := by
  unfold prepDir
  dsimp only
  simp only [Bool.false_and, Bool.false_eq_true, if_false]
  split
  · rfl
  · rfl

theorem bsCalls_append (t t' : List Ev) :
    bsCalls (t ++ t') = bsCalls t ++ bsCalls t' := by
  simp [bsCalls]

theorem bsCalls_nb {t : List Ev} (h : noBuildsys t = true) : bsCalls t = [] := by
  unfold bsCalls
  rw [List.filterMap_eq_nil_iff]
  intro e he
  unfold noBuildsys at h
  rw [List.all_eq_true] at h
  have h2 := h e he
  cases e <;> simp_all [buildsysOf]

theorem bsCalls_copyIte (P : Prop) [Decidable P] (files : List String) (d : String) :
    bsCalls (if P then files.map (fun f => Ev.copyEv f d) else []) = [] := by
  split
  · exact bsCalls_nb (by simp [noBuildsys, List.all_map, buildsysOf])
  · rfl

theorem bsCalls_printIte (cfg : Config) (P : Prop) [inst : Decidable P] (s s1 s2 s3 : String) :
    bsCalls (if P then prTrace cfg s
      else prTrace cfg s1 ++ (prTrace cfg s2 ++ prTrace cfg s3)) = [] := by
  split
  · exact bsCalls_nb (prTrace_all cfg _ _ (fun _ => rfl))
  · rw [bsCalls_append, bsCalls_append,
      bsCalls_nb (prTrace_all cfg _ _ (fun _ => rfl)),
      bsCalls_nb (prTrace_all cfg _ _ (fun _ => rfl)),
      bsCalls_nb (prTrace_all cfg _ _ (fun _ => rfl))]
    rfl

/-- A successful single-unit `_build` pass: the context it acquired, its
final world, and its single adapter invocation. -/
theorem build_impl_single_success {cfg : Config} (hvar : cfg.variants = [])
    (ip bb : String) (clean install : Bool) (w : World)
    (hok : ((build_impl cfg ip bb clean install) w).1 = .ok true) :
    ∃ c w3 t3,
      acquireRes cfg (cfg.build_requires ++ cfg.requires)
          (pjoin (pjoin bb "") "build.rxt") (prepDir clean (pjoin bb "") w).1 =
        (.ok c, w3, t3) ∧
      ((build_impl cfg ip bb clean install) w).2.1 = w3 ∧
      bsCalls ((build_impl cfg ip bb clean install) w).2.2 =
        [(c, pjoin bb "", pjoin (get_base_install_path cfg ip) "", install,
          cfg.buildsys c (pjoin bb "") (pjoin (get_base_install_path cfg ip) "") install)] ∧
      (cfg.buildsys c (pjoin bb "") (pjoin (get_base_install_path cfg ip) "") install).success
        = true := by
  have hdrnb : ∀ s h, noBuildsys (hdrTrace cfg s h) = true := fun s h =>
    hdrTrace_all cfg s h _ (fun _ => rfl)
  have prnb : ∀ s, noBuildsys (prTrace cfg s) = true := fun s =>
    prTrace_all cfg s _ (fun _ => rfl)
  have pdnb : ∀ cl bp w, noBuildsys (prepDir cl bp w).2 = true := fun cl bp w =>
    prepDir_all cl bp w _ (fun _ => rfl) (fun _ => rfl)
  have aqnb : ∀ req q w, noBuildsys (acquireRes cfg req q w).2.2 = true := fun req q w =>
    acquireRes_all cfg req q w _ (fun _ => rfl) (fun _ => rfl) (fun _ _ => rfl)
      (fun _ => rfl) (fun _ _ => rfl)
  have hgb : get_build_list cfg = [⟨none, .str "", cfg.build_requires ++ cfg.requires⟩] := by
    unfold get_build_list
    rw [hvar]
  rw [build_impl_run, hgb, buildUnits_single_run] at hok ⊢
  dsimp only at hok ⊢
  rcases hacq : acquireRes cfg (cfg.build_requires ++ cfg.requires)
    (pjoin (pjoin bb "") "build.rxt") (prepDir clean (pjoin bb "") w).1 with ⟨ar, w3, t3⟩
  rw [hacq] at hok
  have ht3 : noBuildsys t3 = true := by
    have h2 := aqnb (cfg.build_requires ++ cfg.requires)
      (pjoin (pjoin bb "") "build.rxt") (prepDir clean (pjoin bb "") w).1
    rw [hacq] at h2
    exact h2
  cases ar with
  | error e => exact absurd hok (by simp)
  | ok c =>
    dsimp only at hok ⊢
    by_cases hs : (cfg.buildsys c (pjoin bb "")
        (pjoin (get_base_install_path cfg ip) "") install).success = true
    · refine ⟨c, w3, t3, rfl, ?_, ?_, hs⟩
      · simp only [hs, if_true]
        try dsimp only
        try rw [if_pos rfl]
      · simp only [hs, if_true]
        try dsimp only
        try rw [if_pos rfl]
        try dsimp only
        simp only [bsCalls_append, bsCalls_nb (hdrnb _ _), bsCalls_nb (pdnb _ _ _),
          bsCalls_nb ht3, bsCalls_nb (prnb _), bsCalls_copyIte, bsCalls_printIte,
          List.nil_append, List.append_nil]
        simp [bsCalls, buildsysOf]
    · simp only [Bool.not_eq_true] at hs
      rw [hs] at hok
      simp at hok

/-! ## Claim C4: the two-pass release protocol -/

theorem readFile_congr {w w' : World} (h : w.files = w'.files) (p : String) :
    w.readFile p = w'.readFile p := by
  unfold World.readFile
  rw [h]

theorem glr_world (cfg : Config) (el : Bool) (w : World) :
    ((get_last_release cfg el) w).2.1 = w :=
  glr_loop_world _ el cfg.installed w

theorem glr_nb (cfg : Config) (el : Bool) (w : World) :
    noBuildsys ((get_last_release cfg el) w).2.2 = true :=
  glr_loop_all _ el _ (fun _ => rfl) cfg.installed w

theorem build_impl_all (cfg : Config) (ip bb : String) (clean install : Bool)
    (w : World) (p : Ev → Bool)
    (hp : ∀ s, p (.prEv s) = true)
    (hload : ∀ q, p (.loadRxtEv q) = true)
    (hres : ∀ rq t, p (.resolveEv rq t) = true)
    (hinfo : ∀ c, p (.printInfoEv c) = true)
    (hsave : ∀ q c, p (.saveRxtEv q c) = true)
    (hrm : ∀ q, p (.rmtreeEv q) = true)
    (hmk : ∀ q, p (.makedirsEv q) = true)
    (hbs : ∀ c bp ipp ret, p (.buildsysEv c bp ipp install ret) = true)
    (hcp : ∀ s d, install = true → p (.copyEv s d) = true) :
    ((build_impl cfg ip bb clean install) w).2.2.all p = true := by
  rw [build_impl_run]
  rcases hk : buildUnits cfg bb (get_base_install_path cfg ip) clean install
    (get_build_list cfg).length 0 [] (get_build_list cfg) w with ⟨kr, w1, t1⟩
  have ht1 : t1.all p = true := by
    have h2 := buildUnits_all cfg bb (get_base_install_path cfg ip) clean install
      (get_build_list cfg).length p hp hload hres hinfo hsave hrm hmk hbs hcp
      (get_build_list cfg) 0 [] w
    rw [hk] at h2
    exact h2
  cases kr with
  | error e => exact ht1
  | ok q =>
    rcases q with ⟨b, sc⟩
    cases b with
    | false => exact ht1
    | true =>
      dsimp only
      rw [if_pos rfl]
      dsimp only
      rw [List.all_append, ht1, Bool.true_and]
      split
      · exact prTrace_all cfg _ _ hp
      · rw [List.all_append, List.all_append, prTrace_all cfg _ _ hp,
          prTrace_all cfg _ _ hp, prTrace_all cfg _ _ hp]
        rfl

theorem bsCalls_cons_none {e : Ev} (h : buildsysOf e = none) (t : List Ev) :
    bsCalls (e :: t) = bsCalls t := by
  simp [bsCalls, List.filterMap_cons, h]

/-- Claim C4: every release performs its build passes in a fixed order —
first the verify pass (`install=False, clean=True`), then the install pass
(`install=True, clean=False`) — against the same resolved environment.
A successful release performs exactly two adapter invocations: the first
with install=false, the second with install=true, at the same build path
and install path with the same resolved context, both successful.  If the
verify pass fails, the release does not succeed, nothing is installed (no
copy event), no tag is created, and the install pass is never started (no
adapter invocation carries install=true). -/
theorem C4_two_pass_protocol (cfg : Config) (w : World) :
    (rres (release cfg) w = .ok true →
      ∃ c bp ip r1 r2,
        bsCalls (rtrace (release cfg) w) =
          [(c, bp, ip, false, r1), (c, bp, ip, true, r2)] ∧
        r1.success = true ∧ r2.success = true) ∧
    (cfg.vcs.validate_ok = true →
      (∃ lr, rres (get_last_release cfg true) w = .ok lr) →
      rres (verifyPass cfg cfg.release_packages_path (releaseBuildPath cfg)) w ≠ .ok true →
      rres (release cfg) w ≠ .ok true ∧
      (rtrace (release cfg) w).all verifySafe = true) := by
  have hdrnbL : ∀ s h, noBuildsys (hdrTrace cfg s h) = true := fun s h =>
    hdrTrace_all cfg s h _ (fun _ => rfl)
  constructor
  · -- success shape
    intro hok
    unfold rres at hok
    unfold rtrace
    rw [release_run] at hok ⊢
    by_cases hv : cfg.vcs.validate_ok = true
    · simp only [hv, if_true] at hok ⊢
      rcases hglr : get_last_release cfg true w with ⟨glr, w1, t1⟩
      try rw [hglr] at hok
      try rw [hglr]
      have ht1nb : noBuildsys t1 = true := by
        have h2 := glr_nb cfg true w
        rw [hglr] at h2
        exact h2
      cases glr with
      | error e => exact absurd hok (by simp)
      | ok last =>
        dsimp only at hok ⊢
        rcases hvp : verifyPass cfg cfg.release_packages_path (releaseBuildPath cfg) w1
          with ⟨vr, w2, t2⟩
        try rw [hvp] at hok
        try rw [hvp]
        cases vr with
        | error e => exact absurd hok (by simp)
        | ok b1 =>
          cases b1 with
          | false => exact absurd hok (by simp)
          | true =>
            dsimp only at hok ⊢
            rw [if_pos rfl] at hok ⊢
            rcases hipr : installPass cfg cfg.release_packages_path (releaseBuildPath cfg) w2
              with ⟨ir, w3, t3⟩
            try rw [hipr] at hok
            try rw [hipr]
            cases ir with
            | error e => exact absurd hok (by simp)
            | ok b2 =>
              cases b2 with
              | false => exact absurd hok (by simp)
              | true =>
                dsimp only at hok ⊢
                rw [if_pos rfl] at hok ⊢
                by_cases htag : cfg.vcs.create_tag_ok = true
                · simp only [htag, if_true] at hok ⊢
                  -- variants must be empty, otherwise the verify pass crashed
                  cases hvss : cfg.variants with
                  | cons v vs =>
                    have hcr := build_impl_variants_crash cfg hvss
                      cfg.release_packages_path (releaseBuildPath cfg) true false w1
                    rw [show build_impl cfg cfg.release_packages_path (releaseBuildPath cfg)
                      true false w1 = (Except.ok true, w2, t2) from hvp] at hcr
                    exact absurd hcr (by simp)
                  | nil =>
                    have hvok : ((build_impl cfg cfg.release_packages_path
                        (releaseBuildPath cfg) true false) w1).1 = .ok true := by
                      rw [show build_impl cfg cfg.release_packages_path (releaseBuildPath cfg)
                        true false w1 = (Except.ok true, w2, t2) from hvp]
                    have hiok : ((build_impl cfg cfg.release_packages_path
                        (releaseBuildPath cfg) false true) w2).1 = .ok true := by
                      rw [show build_impl cfg cfg.release_packages_path (releaseBuildPath cfg)
                        false true w2 = (Except.ok true, w3, t3) from hipr]
                    obtain ⟨c, w3v, t3v, hacqv, hwv, hbsv, hsv⟩ :=
                      build_impl_single_success hvss cfg.release_packages_path
                        (releaseBuildPath cfg) true false w1 hvok
                    obtain ⟨c2, w3i, t3i, hacqi, hwi, hbsi, hsi⟩ :=
                      build_impl_single_success hvss cfg.release_packages_path
                        (releaseBuildPath cfg) false true w2 hiok
                    -- identify the worlds
                    have hw2 : w2 = w3v := by
                      rw [show build_impl cfg cfg.release_packages_path (releaseBuildPath cfg)
                        true false w1 = (Except.ok true, w2, t2) from hvp] at hwv
                      exact hwv
                    -- the cache file after the verify pass holds c
                    have hrd : w2.readFile
                        (pjoin (pjoin (releaseBuildPath cfg) "") "build.rxt") =
                        some (.rxt c) := by
                      rw [hw2]
                      exact acquireRes_ok_readFile hacqv
                    -- hence the install pass acquires the same context
                    have hhit : acquireRes cfg (cfg.build_requires ++ cfg.requires)
                        (pjoin (pjoin (releaseBuildPath cfg) "") "build.rxt")
                        (prepDir false (pjoin (releaseBuildPath cfg) "") w2).1 =
                        (.ok c, (prepDir false (pjoin (releaseBuildPath cfg) "") w2).1,
                          prTrace cfg "Loading existing environment context..." ++
                            [.loadRxtEv (pjoin (pjoin (releaseBuildPath cfg) "") "build.rxt")]) := by
                      apply acquireRes_hit
                      rw [readFile_congr (prepDir_false_files (pjoin (releaseBuildPath cfg) "") w2)]
                      exact hrd
                    have hc2 : c2 = c := by
                      rw [hacqi] at hhit
                      have h2 := congrArg (fun x => x.1) hhit
                      exact (Except.ok.injEq _ _).mp h2
                    -- trace of each pass
                    have ht2 : t2 = ((build_impl cfg cfg.release_packages_path
                        (releaseBuildPath cfg) true false) w1).2.2 := by
                      rw [show build_impl cfg cfg.release_packages_path (releaseBuildPath cfg)
                        true false w1 = (Except.ok true, w2, t2) from hvp]
                    have ht3 : t3 = ((build_impl cfg cfg.release_packages_path
                        (releaseBuildPath cfg) false true) w2).2.2 := by
                      rw [show build_impl cfg cfg.release_packages_path (releaseBuildPath cfg)
                        false true w2 = (Except.ok true, w3, t3) from hipr]
                    refine ⟨c, pjoin (releaseBuildPath cfg) "",
                      pjoin (get_base_install_path cfg cfg.release_packages_path) "",
                      cfg.buildsys c (pjoin (releaseBuildPath cfg) "")
                        (pjoin (get_base_install_path cfg cfg.release_packages_path) "") false,
                      cfg.buildsys c (pjoin (releaseBuildPath cfg) "")
                        (pjoin (get_base_install_path cfg cfg.release_packages_path) "") true,
                      ?_, hsv, ?_⟩
                    · rw [bsCalls_cons_none (show buildsysOf Ev.validateEv = none from rfl)]
                      rw [bsCalls_append, bsCalls_append, bsCalls_append, bsCalls_append,
                        bsCalls_append]
                      rw [bsCalls_nb ht1nb, bsCalls_nb (hdrnbL _ _), bsCalls_nb (hdrnbL _ _)]
                      rw [ht2, ht3, hbsv]
                      rw [hc2] at hbsi
                      rw [hbsi]
                      rfl
                    · rw [hc2] at hsi
                      exact hsi
                · simp only [Bool.not_eq_true] at htag
                  simp only [htag, Bool.false_eq_true, if_false] at hok
                  exact absurd hok (by simp)
    · simp only [Bool.not_eq_true] at hv
      simp only [hv, Bool.false_eq_true, if_false] at hok
      exact absurd hok (by simp)
  · -- verify-pass failure
    intro hv hglrok hvfail
    unfold rres at hglrok hvfail
    unfold rres rtrace
    rw [release_run]
    simp only [hv, if_true]
    rcases hglr : get_last_release cfg true w with ⟨glr, w1, t1⟩
    have hw1 : w1 = w := by
      have h2 := glr_world cfg true w
      rw [hglr] at h2
      exact h2
    rw [hw1] at hglr
    try rw [hw1]
    rcases hglrok with ⟨lr, hlr⟩
    have ht1safe : t1.all verifySafe = true := by
      have h2 : ((get_last_release cfg true) w).2.2.all verifySafe = true :=
        glr_loop_all (cfg.version.getD 0) true verifySafe (fun _ => rfl) cfg.installed w
      rw [hglr] at h2
      exact h2
    cases glr with
    | error e =>
      rw [hglr] at hlr
      exact absurd hlr (by simp)
    | ok last =>
      dsimp only
      rcases hvp : verifyPass cfg cfg.release_packages_path (releaseBuildPath cfg) w
        with ⟨vr, w2, t2⟩
      try rw [hvp] at hvfail
      try rw [hvp]
      have ht2safe : t2.all verifySafe = true := by
        have h2 := build_impl_all cfg cfg.release_packages_path (releaseBuildPath cfg)
          true false w verifySafe (fun _ => rfl) (fun _ => rfl) (fun _ _ => rfl)
          (fun _ => rfl) (fun _ _ => rfl) (fun _ => rfl) (fun _ => rfl)
          (fun _ _ _ _ => rfl) (fun _ _ h => Bool.noConfusion h)
        rw [show (build_impl cfg cfg.release_packages_path (releaseBuildPath cfg)
          true false) w = (vr, w2, t2) from hvp] at h2
        exact h2
      have hhdrsafe : (hdrTrace cfg "Building..." 1).all verifySafe = true :=
        hdrTrace_all cfg _ _ _ (fun _ => rfl)
      cases vr with
      | error e =>
        refine ⟨by simp, ?_⟩
        rw [List.all_cons, List.all_append, List.all_append]
        rw [ht1safe, ht2safe, hhdrsafe]
        rfl
      | ok b1 =>
        cases b1 with
        | false =>
          dsimp only
          rw [if_neg (by simp)]
          refine ⟨by simp, ?_⟩
          rw [List.all_cons, List.all_append, List.all_append]
          rw [ht1safe, ht2safe, hhdrsafe]
          rfl
        | true => exact absurd rfl hvfail

/-- Witness for C4: a successful concrete release shows the two ordered
passes on the same context; a release whose adapter fails the verify pass
shows failure with no copy, no tag and no install-pass call. -/
theorem C4_witness :
    (∃ c bp ip r1 r2,
      bsCalls (rtrace (release cfgC4) wC4) =
        [(c, bp, ip, false, r1), (c, bp, ip, true, r2)] ∧
      r1.success = true ∧ r2.success = true) ∧
    (rres (release cfgC4f) wC4 ≠ .ok true ∧
      (rtrace (release cfgC4f) wC4).all verifySafe = true) :=
  ⟨(C4_two_pass_protocol cfgC4 wC4).1 (by decide),
    (C4_two_pass_protocol cfgC4f wC4).2 rfl ⟨(none, none), by decide⟩ (by decide)⟩

theorem keyTrace_append (t t' : List Ev) :
    keyTrace (t ++ t') = keyTrace t ++ keyTrace t' := by
  simp [keyTrace]

theorem keyTrace_nb {t : List Ev} (h : noKey t = true) : keyTrace t = [] := by
  unfold keyTrace
  rw [List.filterMap_eq_nil_iff]
  intro e he
  unfold noKey at h
  rw [List.all_eq_true] at h
  have h2 := h e he
  cases e <;> simp_all [keyEvent]

theorem prTrace_nk (cfg : Config) (s : String) : noKey (prTrace cfg s) = true :=
  prTrace_all cfg s _ (fun _ => rfl)

theorem hdrTrace_nk (cfg : Config) (s : String) (h : Nat) :
    noKey (hdrTrace cfg s h) = true :=
  hdrTrace_all cfg s h _ (fun _ => rfl)

theorem prepDir_nk (clean : Bool) (bp : String) (w : World) :
    noKey (prepDir clean bp w).2 = true :=
  prepDir_all clean bp w _ (fun _ => rfl) (fun _ => rfl)

theorem keyTrace_copyIte (P : Prop) [Decidable P] (files : List String) (d : String) :
    keyTrace (if P then files.map (fun f => Ev.copyEv f d) else []) = [] := by
  split
  · exact keyTrace_nb (by simp [noKey, List.all_map, keyEvent])
  · rfl

theorem keyTrace_printIte (cfg : Config) (P : Prop) [inst : Decidable P]
    (s s1 s2 s3 : String) :
    keyTrace (if P then prTrace cfg s
      else prTrace cfg s1 ++ (prTrace cfg s2 ++ prTrace cfg s3)) = [] := by
  split
  · exact keyTrace_nb (prTrace_nk cfg _)
  · rw [keyTrace_append, keyTrace_append, keyTrace_nb (prTrace_nk cfg _),
      keyTrace_nb (prTrace_nk cfg _), keyTrace_nb (prTrace_nk cfg _)]
    rfl

theorem append_ne_self {a s : String} (h : s ≠ "") : a ++ s ≠ a := by
  intro he
  have hl := congrArg String.length he
  rw [String.length_append] at hl
  have h0 : s.length = 0 := by omega
  apply h
  cases s with
  | mk data =>
    have hd : data = [] := List.eq_nil_of_length_eq_zero h0
    rw [hd]

theorem pjoin_build_rxt_ne (bp : String) : pjoin bp "build.rxt" ≠ bp := by
  unfold pjoin
  rw [if_neg (by decide)]
  by_cases hb : bp = "" ∨ bp.data.getLast? = some '/'
  · rw [if_pos (by simpa using hb)]
    exact append_ne_self (by decide)
  · rw [if_neg (by simpa using hb)]
    rw [String.append_assoc]
    exact append_ne_self (by decide)

theorem prepDir_false_time (bp : String) (w : World) :
    ((prepDir false bp w).1).time = w.time := by
  unfold prepDir
  dsimp only
  simp only [Bool.false_and, Bool.false_eq_true, if_false]
  split
  · rfl
  · rfl

theorem prepDir_false_pathExists_rxt {bp : String} (w : World)
    (h : w.pathExists (pjoin bp "build.rxt") = false) :
    ((prepDir false bp w).1).pathExists (pjoin bp "build.rxt") = false := by
  unfold prepDir
  dsimp only
  simp only [Bool.false_and, Bool.false_eq_true, if_false]
  split
  · exact h
  · unfold World.pathExists at h
    unfold World.pathExists World.makedirs
    simp only [List.contains_cons]
    have hne : (pjoin bp "build.rxt" == bp) = false := by
      rw [beq_eq_false_iff_ne]
      exact pjoin_build_rxt_ne bp
    simp only [hne, Bool.false_or]
    exact h

theorem acquireRes_miss {w : World} {p : String} (cfg : Config) (rq : List String)
    (h : w.pathExists p = false) :
    acquireRes cfg rq p w =
      (.ok ⟨rq, w.time⟩, ({ w with time := w.time + 1 }).writeFile p (.rxt ⟨rq, w.time⟩),
        prTrace cfg ("Resolving build environment: " ++ String.intercalate " " rq) ++
          [.resolveEv rq w.time, .printInfoEv ⟨rq, w.time⟩, .saveRxtEv p ⟨rq, w.time⟩]) := by
  unfold acquireRes
  rw [if_neg (by simp [h])]

theorem build_impl_single_keyTrace {cfg : Config} (hvar : cfg.variants = [])
    (ip bb : String) (clean install : Bool) (w : World) {c : ResolvedContext}
    {w3 : World} {t3 : List Ev}
    (hacq : acquireRes cfg (cfg.build_requires ++ cfg.requires)
      (pjoin (pjoin bb "") "build.rxt") (prepDir clean (pjoin bb "") w).1 =
        (.ok c, w3, t3)) :
    keyTrace (rtrace (build_impl cfg ip bb clean install) w) =
      keyTrace t3 ++
        [.buildsysEv c (pjoin bb "") (pjoin (get_base_install_path cfg ip) "") install
          (cfg.buildsys c (pjoin bb "") (pjoin (get_base_install_path cfg ip) "") install)] ∧
    rworld (build_impl cfg ip bb clean install) w = w3 := by
  have hgb : get_build_list cfg = [⟨none, .str "", cfg.build_requires ++ cfg.requires⟩] := by
    unfold get_build_list
    rw [hvar]
  unfold rtrace rworld
  rw [build_impl_run, hgb, buildUnits_single_run]
  dsimp only
  rw [hacq]
  by_cases hs : (cfg.buildsys c (pjoin bb "")
      (pjoin (get_base_install_path cfg ip) "") install).success = true
  · simp only [hs, if_true]
    try dsimp only
    try rw [if_pos rfl]
    try dsimp only
    constructor
    · simp only [keyTrace_append, keyTrace_nb (hdrTrace_nk cfg _ _),
        keyTrace_nb (prepDir_nk _ _ _), keyTrace_nb (prTrace_nk cfg _),
        keyTrace_copyIte, keyTrace_printIte, List.nil_append, List.append_nil]
      rfl
    · trivial
  · simp only [Bool.not_eq_true] at hs
    simp only [hs, Bool.false_eq_true, if_false]
    try dsimp only
    constructor
    · simp only [keyTrace_append, keyTrace_nb (hdrTrace_nk cfg _ _),
        keyTrace_nb (prepDir_nk _ _ _), keyTrace_nb (prTrace_nk cfg _),
        List.nil_append, List.append_nil]
      rfl
    · trivial

theorem ctxsUsed_keyTrace (tr : List Ev) : ctxsUsed (keyTrace tr) = ctxsUsed tr := by
  induction tr with
  | nil => rfl
  | cons e rest ih =>
    cases e <;> simp_all [ctxsUsed, keyTrace, keyEvent, buildsysOf, List.filterMap_cons]

/-- Claim C7: the environment cache of a build unit (variant-less package,
`clean` unset, so nothing removes the cache).
(1) Cache hit: if the unit's cache file holds a persisted context, it is
loaded and used verbatim — the cache-protocol events are exactly a load
followed by the adapter invocation with the loaded context, with no
resolver call.
(2) Cache miss: if the cache file does not exist, the resolver is invoked
with the unit's requirements, the result is stamped with the current time
and persisted to the cache file before use — resolve, then save, then the
adapter invocation — and the file holds that context afterwards.
(3) Hence two consecutive builds with no intervening clean hand the
adapter contexts with identical timestamps: after a first build from a
missing cache, the second build uses the context stamped at the first
build's time. -/
theorem C7_environment_cache (cfg : Config) (ip bb : String) (install : Bool)
    (w : World) (hvar : cfg.variants = []) :
    (∀ c, w.readFile (pjoin (pjoin bb "") "build.rxt") = some (.rxt c) →
      keyTrace (rtrace (build_impl cfg ip bb false install) w) =
        [.loadRxtEv (pjoin (pjoin bb "") "build.rxt"),
          .buildsysEv c (pjoin bb "") (pjoin (get_base_install_path cfg ip) "") install
            (cfg.buildsys c (pjoin bb "")
              (pjoin (get_base_install_path cfg ip) "") install)]) ∧
    (w.pathExists (pjoin (pjoin bb "") "build.rxt") = false →
      keyTrace (rtrace (build_impl cfg ip bb false install) w) =
        [.resolveEv (cfg.build_requires ++ cfg.requires) w.time,
          .saveRxtEv (pjoin (pjoin bb "") "build.rxt")
            ⟨cfg.build_requires ++ cfg.requires, w.time⟩,
          .buildsysEv ⟨cfg.build_requires ++ cfg.requires, w.time⟩ (pjoin bb "")
            (pjoin (get_base_install_path cfg ip) "") install
            (cfg.buildsys ⟨cfg.build_requires ++ cfg.requires, w.time⟩ (pjoin bb "")
              (pjoin (get_base_install_path cfg ip) "") install)] ∧
      (rworld (build_impl cfg ip bb false install) w).readFile
          (pjoin (pjoin bb "") "build.rxt") =
        some (.rxt ⟨cfg.build_requires ++ cfg.requires, w.time⟩)) ∧
    (w.pathExists (pjoin (pjoin bb "") "build.rxt") = false →
      ctxsUsed (rtrace (build_impl cfg ip bb false install) w) =
        [⟨cfg.build_requires ++ cfg.requires, w.time⟩] ∧
      ctxsUsed (rtrace (build_impl cfg ip bb false install)
          (rworld (build_impl cfg ip bb false install) w)) =
        [⟨cfg.build_requires ++ cfg.requires, w.time⟩]) := by
  have hit : ∀ (w' : World) (c : ResolvedContext),
      w'.readFile (pjoin (pjoin bb "") "build.rxt") = some (.rxt c) →
      keyTrace (rtrace (build_impl cfg ip bb false install) w') =
        [.loadRxtEv (pjoin (pjoin bb "") "build.rxt"),
          .buildsysEv c (pjoin bb "") (pjoin (get_base_install_path cfg ip) "") install
            (cfg.buildsys c (pjoin bb "")
              (pjoin (get_base_install_path cfg ip) "") install)] := by
    intro w' c hr
    have hr2 : ((prepDir false (pjoin bb "") w').1).readFile
        (pjoin (pjoin bb "") "build.rxt") = some (.rxt c) := by
      rw [readFile_congr (prepDir_false_files (pjoin bb "") w')]
      exact hr
    have hacq := acquireRes_hit cfg (cfg.build_requires ++ cfg.requires) hr2
    have hk := build_impl_single_keyTrace hvar ip bb false install w' hacq
    rw [hk.1]
    rw [keyTrace_append, keyTrace_nb (prTrace_nk cfg _)]
    rfl
  have miss : ∀ (w' : World),
      w'.pathExists (pjoin (pjoin bb "") "build.rxt") = false →
      keyTrace (rtrace (build_impl cfg ip bb false install) w') =
        [.resolveEv (cfg.build_requires ++ cfg.requires) w'.time,
          .saveRxtEv (pjoin (pjoin bb "") "build.rxt")
            ⟨cfg.build_requires ++ cfg.requires, w'.time⟩,
          .buildsysEv ⟨cfg.build_requires ++ cfg.requires, w'.time⟩ (pjoin bb "")
            (pjoin (get_base_install_path cfg ip) "") install
            (cfg.buildsys ⟨cfg.build_requires ++ cfg.requires, w'.time⟩ (pjoin bb "")
              (pjoin (get_base_install_path cfg ip) "") install)] ∧
      (rworld (build_impl cfg ip bb false install) w').readFile
          (pjoin (pjoin bb "") "build.rxt") =
        some (.rxt ⟨cfg.build_requires ++ cfg.requires, w'.time⟩) := by
    intro w' hne
    have hne2 := prepDir_false_pathExists_rxt w' hne
    have hacq := acquireRes_miss cfg (cfg.build_requires ++ cfg.requires) hne2
    rw [prepDir_false_time (pjoin bb "") w'] at hacq
    have hk := build_impl_single_keyTrace hvar ip bb false install w' hacq
    constructor
    · rw [hk.1]
      rw [keyTrace_append, keyTrace_nb (prTrace_nk cfg _)]
      rfl
    · rw [hk.2]
      exact World.readFile_writeFile _ _ _
  refine ⟨fun c hr => hit w c hr, fun hne => miss w hne, fun hne => ?_⟩
  have h1 := miss w hne
  have hrd2 := h1.2
  have h2 := hit (rworld (build_impl cfg ip bb false install) w)
    ⟨cfg.build_requires ++ cfg.requires, w.time⟩ hrd2
  constructor
  · rw [← ctxsUsed_keyTrace, h1.1]
    rfl
  · rw [← ctxsUsed_keyTrace, h2]
    rfl

/-- Witness for C7: a concrete first build resolves and persists at time
42; a second build over its final world loads the cache, and both hand the
adapter the identically-stamped context. -/
theorem C7_witness :
    ctxsUsed (rtrace (build_impl cfgC7 "ip" "bb" false true) wC7) =
      [⟨["bzip", "bar"], 42⟩] ∧
    ctxsUsed (rtrace (build_impl cfgC7 "ip" "bb" false true)
        (rworld (build_impl cfgC7 "ip" "bb" false true) wC7)) =
      [⟨["bzip", "bar"], 42⟩] :=
  (C7_environment_cache cfgC7 "ip" "bb" true wC7 rfl).2.2 (by decide)

theorem copies_append (t t' : List Ev) :
    copies (t ++ t') = copies t ++ copies t' := by
  simp [copies]

theorem copies_nc {t : List Ev} (h : noCopy t = true) : copies t = [] := by
  unfold copies
  rw [List.filterMap_eq_nil_iff]
  intro e he
  unfold noCopy at h
  rw [List.all_eq_true] at h
  have h2 := h e he
  cases e <;> simp_all [copyOf]

theorem copies_printIte (cfg : Config) (P : Prop) [inst : Decidable P] (s s1 s2 s3 : String) :
    copies (if P then prTrace cfg s
      else prTrace cfg s1 ++ (prTrace cfg s2 ++ prTrace cfg s3)) = [] := by
  split
  · exact copies_nc (prTrace_all cfg _ _ (fun _ => rfl))
  · rw [copies_append, copies_append,
      copies_nc (prTrace_all cfg _ _ (fun _ => rfl)),
      copies_nc (prTrace_all cfg _ _ (fun _ => rfl)),
      copies_nc (prTrace_all cfg _ _ (fun _ => rfl))]
    rfl

/-- Claim C8 counterexample: an adapter that reports success with NO
install artifacts (its `extra_files` is empty for every input, as the one
sampled call shows for this constant adapter) still causes a copy into the
unit install path when `install` is set: the cache file is always appended
to the copy list, so the list is never empty. The claim's final clause
("no copy into the install path occurs when the adapter reports no
install_artifacts") is false. -/
theorem C8_counterexample :
    (cfgC8.buildsys ⟨["bar"], 42⟩ "bb/" "root/foo/2/" true).extra_files = [] ∧
    copies (rtrace (build_impl cfgC8 "root" "bb" false true) wC8) =
      [("bb/build.rxt", "root/foo/2/")] := by
  constructor
  · rfl
  · decide

/-- Claim C8, amended: for a variant-less package, on a successful build
with `install` set, the files copied into the unit install path are
exactly the adapter's reported `extra_files` followed by the unit's cache
file — the cache file is copied unconditionally, even when the adapter
reports no artifacts — and the destination is
`install_path/name[/version]/subdir` (version appended exactly when the
package has a pinned version; the subdir of the single unit is empty). -/
theorem C8_amended (cfg : Config) (hvar : cfg.variants = [])
    (ip bb : String) (clean : Bool) (w : World)
    (c : ResolvedContext) (w3 : World) (t3 : List Ev)
    (hacq : acquireRes cfg (cfg.build_requires ++ cfg.requires)
        (pjoin (pjoin bb "") "build.rxt") (prepDir clean (pjoin bb "") w).1 =
      (.ok c, w3, t3))
    (hs : (cfg.buildsys c (pjoin bb "")
        (pjoin (get_base_install_path cfg ip) "") true).success = true) :
    copies (rtrace (build_impl cfg ip bb clean true) w) =
      ((cfg.buildsys c (pjoin bb "")
          (pjoin (get_base_install_path cfg ip) "") true).extra_files ++
        [pjoin (pjoin bb "") "build.rxt"]).map
        (fun f => (f,
          pjoin (match cfg.version with
            | some v => pjoin (pjoin ip cfg.name) (toString v)
            | none => pjoin ip cfg.name) "")) := by
  have hdrnc : ∀ s h, noCopy (hdrTrace cfg s h) = true := fun s h =>
    hdrTrace_all cfg s h _ (fun _ => rfl)
  have prnc : ∀ s, noCopy (prTrace cfg s) = true := fun s =>
    prTrace_all cfg s _ (fun _ => rfl)
  have pdnc : ∀ cl bp w, noCopy (prepDir cl bp w).2 = true := fun cl bp w =>
    prepDir_all cl bp w _ (fun _ => rfl) (fun _ => rfl)
  have aqnc : ∀ req q w, noCopy (acquireRes cfg req q w).2.2 = true := fun req q w =>
    acquireRes_all cfg req q w _ (fun _ => rfl) (fun _ => rfl) (fun _ _ => rfl)
      (fun _ => rfl) (fun _ _ => rfl)
  have ht3 : noCopy t3 = true := by
    have h2 := aqnc (cfg.build_requires ++ cfg.requires)
      (pjoin (pjoin bb "") "build.rxt") (prepDir clean (pjoin bb "") w).1
    rw [hacq] at h2
    exact h2
  have hgb : get_build_list cfg = [⟨none, .str "", cfg.build_requires ++ cfg.requires⟩] := by
    unfold get_build_list
    rw [hvar]
  have hbase : get_base_install_path cfg ip =
      (match cfg.version with
        | some v => pjoin (pjoin ip cfg.name) (toString v)
        | none => pjoin ip cfg.name) := by
    unfold get_base_install_path
    rfl
  unfold rtrace
  rw [build_impl_run, hgb, buildUnits_single_run]
  dsimp only
  rw [hacq]
  dsimp only
  have hcp : (true && !((cfg.buildsys c (pjoin bb "")
      (pjoin (get_base_install_path cfg ip) "") true).extra_files ++
      [pjoin (pjoin bb "") "build.rxt"]).isEmpty) = true := by
    simp
  simp only [hs, eq_self_iff_true, if_true, hcp]
  try dsimp only
  simp only [copies_append, copies_printIte, copies_nc (hdrnc _ _), copies_nc (pdnc _ _ _),
    copies_nc ht3, copies_nc (prnc _), List.append_nil, List.nil_append]
  rw [← hbase]
  simp only [copies, List.filterMap_append, List.filterMap_map, List.map_append]
  have hone : ∀ (d : String) (fs : List String),
      List.filterMap (copyOf ∘ fun f => Ev.copyEv f d) fs =
        List.map (fun f => (f, d)) fs := by
    intro d fs
    induction fs with
    | nil => rfl
    | cons a rest ih =>
      simp only [List.filterMap_cons, Function.comp_apply, copyOf, List.map_cons]
      rw [ih]
  simp [hone, copyOf]

/-- Witness for C8: an adapter reporting `install_artifacts = ["lib.so"]`
on package `foo` version 2 with no variants — the install pass copies
`lib.so` and then the cache file into `root/foo/2/`. -/
theorem C8_witness :
    copies (rtrace (build_impl cfgC8w "root" "bb" false true) wC8) =
      [("lib.so", "root/foo/2/"), ("bb/build.rxt", "root/foo/2/")] := by
  have h := C8_amended cfgC8w rfl "root" "bb" false wC8 ⟨["bar"], 42⟩
    ⟨["bb/"], [("bb/build.rxt", .rxt ⟨["bar"], 42⟩)], 43⟩
    [.resolveEv ["bar"] 42, .printInfoEv ⟨["bar"], 42⟩,
      .saveRxtEv "bb/build.rxt" ⟨["bar"], 42⟩]
    (by decide) (by decide)
  rw [h]
  rfl

/-- Claim C9 counterexample: two runs that accumulate different
activation-script lists (one adapter reports `env.sh`, the other reports
none) return the very same value, so the build operation's return value
cannot carry the script list: `_build` returns only the aggregate bool.
The scripts are only accumulated internally and printed. -/
theorem C9_counterexample :
    rres (build_impl cfgC9a "ip" "bb" false false) ⟨[], [], 42⟩ =
      rres (build_impl cfgC9b "ip" "bb" false false) ⟨[], [], 42⟩ ∧
    accumScripts (rtrace (build_impl cfgC9a "ip" "bb" false false) ⟨[], [], 42⟩) =
      ["env.sh"] ∧
    accumScripts (rtrace (build_impl cfgC9b "ip" "bb" false false) ⟨[], [], 42⟩) =
      [] := by
  refine ⟨?_, by decide, by decide⟩
  decide

/-- Claim C9, amended: the build operation returns only the aggregate
success/failure bool. The activation scripts reported by the adapters
across the attempted units are accumulated internally (the loop's
accumulator equals exactly the truthy scripts of the successful adapter
invocations, an empty list when no adapter reported one) and are then
printed, not returned: on overall success the operation appends to the
loop's trace either the script listing (when the accumulator is
non-empty) or the all-builds-successful message (when it is empty). -/
theorem C9_result_and_scripts (cfg : Config) (ip bb : String) (clean install : Bool)
    (w : World)
    (hok : rres (build_impl cfg ip bb clean install) w = .ok true) :
    rres (buildUnits cfg bb (get_base_install_path cfg ip) clean install
        (get_build_list cfg).length 0 [] (get_build_list cfg)) w =
      .ok (true, accumScripts (rtrace (buildUnits cfg bb (get_base_install_path cfg ip)
        clean install (get_build_list cfg).length 0 [] (get_build_list cfg)) w)) ∧
    rtrace (build_impl cfg ip bb clean install) w =
      rtrace (buildUnits cfg bb (get_base_install_path cfg ip) clean install
          (get_build_list cfg).length 0 [] (get_build_list cfg)) w ++
        (if (accumScripts (rtrace (buildUnits cfg bb (get_base_install_path cfg ip)
            clean install (get_build_list cfg).length 0 [] (get_build_list cfg)) w)).isEmpty then
          prTrace cfg ("\nAll " ++ toString (get_build_list cfg).length ++
            " build(s) were successful.\n")
        else
          prTrace cfg "\nThe following executable script(s) have been created:" ++
            (prTrace cfg (String.intercalate "\n"
              (accumScripts (rtrace (buildUnits cfg bb (get_base_install_path cfg ip)
                clean install (get_build_list cfg).length 0 [] (get_build_list cfg)) w))) ++
              prTrace cfg "")) := by
  unfold rres at hok
  unfold rres rtrace
  rw [build_impl_run] at hok ⊢
  rcases hk : buildUnits cfg bb (get_base_install_path cfg ip) clean install
    (get_build_list cfg).length 0 [] (get_build_list cfg) w with ⟨kr, w1, t1⟩
  rw [hk] at hok
  try rw [hk]
  cases kr with
  | error e => exact absurd hok (by simp)
  | ok p =>
    rcases p with ⟨b, sc⟩
    cases b with
    | false => exact absurd hok (by simp)
    | true =>
      have hsc := buildUnits_scripts_accum cfg bb (get_base_install_path cfg ip)
        clean install (get_build_list cfg).length (get_build_list cfg) 0 [] w true sc
        (by rw [hk])
      rw [hk] at hsc
      dsimp only at hsc ⊢
      rw [List.nil_append] at hsc
      subst hsc
      exact ⟨rfl, rfl⟩

/-- Witness for the amended C9: a successful verbose build whose single
adapter reports `env.sh` — the loop's accumulator holds exactly
`["env.sh"]`, and the operation prints the script listing after the
loop's trace rather than returning the list. -/
theorem C9_witness :
    rres (buildUnits cfgC9v "bb" (get_base_install_path cfgC9v "ip") false false
        (get_build_list cfgC9v).length 0 [] (get_build_list cfgC9v)) ⟨[], [], 42⟩ =
      .ok (true, ["env.sh"]) ∧
    rtrace (build_impl cfgC9v "ip" "bb" false false) ⟨[], [], 42⟩ =
      rtrace (buildUnits cfgC9v "bb" (get_base_install_path cfgC9v "ip") false false
          (get_build_list cfgC9v).length 0 [] (get_build_list cfgC9v)) ⟨[], [], 42⟩ ++
        (prTrace cfgC9v "\nThe following executable script(s) have been created:" ++
          (prTrace cfgC9v "env.sh" ++ prTrace cfgC9v "")) := by
  have h := C9_result_and_scripts cfgC9v "ip" "bb" false false ⟨[], [], 42⟩ (by decide)
  constructor
  · rw [h.1]
    decide
  · rw [h.2]
    decide
